import Mathlib

/-!
Shallow embedding of the rusty_snake battlesnake engine: the board simulation
(`src/simulation.rs`) and the minimax scorer / search tree (`src/minimax.rs`).

Rust `panic!` / `unwrap()` failures are modelled by `Except String`.  The `u32`
health field is modelled as `Nat` with explicit wrap-around modulo `2 ^ 32`
where the source performs unchecked `u32` subtraction.
-/

namespace RustySnake

/-- `models::Coord`: integer (x, y) pair. -/
structure Coord where
  x : Int
  y : Int
deriving DecidableEq, Inhabited

/-- `Coord::intersect`: exact equality of both components. -/
def Coord.intersect (a b : Coord) : Bool :=
  a.x == b.x && a.y == b.y

/-- `models::Battlesnake`: id, body (head first), head, u32 health, elimination cause. -/
structure Battlesnake where
  id : String
  body : List Coord
  head : Coord
  health : Nat
  eliminated_cause : Option String
deriving DecidableEq, Inhabited

/-- `models::Board`: dimensions, food cells, ordered snake collection. -/
structure Board where
  width : Int
  height : Int
  food : List Coord
  snakes : List Battlesnake
deriving DecidableEq, Inhabited

/-- `simulation::EndState`. -/
inductive EndState where
  | Winner (id : String)
  | Playing
  | TIE
deriving DecidableEq, Inhabited

/-- `simulation::Action`. -/
structure Action where
  snake_id : String
  dir : Int × Int
deriving DecidableEq, Inhabited

/-- `Battlesnake::is_eliminated`. -/
def Battlesnake.is_eliminated (s : Battlesnake) : Bool :=
  s.eliminated_cause.isSome

/-- `Battlesnake::out_of_health`: health == 0. -/
def Battlesnake.out_of_health (s : Battlesnake) : Bool :=
  s.health == 0

/-- `Battlesnake::eliminate`: set cause to the GENERIC_ELIMINATION tag "DED". -/
def Battlesnake.eliminate (s : Battlesnake) : Battlesnake :=
  { s with eliminated_cause := some "DED" }

/-- `Battlesnake::self_eliminate`: set cause to the SELF_ELIMINATE tag. -/
def Battlesnake.self_eliminate (s : Battlesnake) : Battlesnake :=
  { s with eliminated_cause := some "eliminated itself" }

/-- `Battlesnake::feed_snake`: health := SNAKE_MAX_HEALTH (100) and duplicate the
tail segment.  `body.last().unwrap()` panics on an empty body in the source; every
call site has already dereferenced `body.get(0)`, so the body is non-empty there
and the `none` branch below is unreachable from those call sites. -/
def Battlesnake.feed_snake (s : Battlesnake) : Battlesnake :=
  { s with
    health := 100
    body := s.body ++ (match s.body.getLast? with
      | some t => [t]
      | none => []) }

/-- `Battlesnake::reduce_health`: `self.health -= 1` on a `u32`, modelled as
wrapping subtraction modulo `2 ^ 32`. -/
def Battlesnake.reduce_health (s : Battlesnake) : Battlesnake :=
  { s with health := (s.health + (2 ^ 32 - 1)) % 2 ^ 32 }

/-- `Battlesnake::head_collide_body`: the head hits some body segment of index ≥ 1. -/
def Battlesnake.head_collide_body (head : Coord) (body : List Coord) : Bool :=
  match body with
  | [] => false
  | _ :: rest => rest.any (fun c => head.intersect c)

/-- `Battlesnake::self_collision`. -/
def Battlesnake.self_collision (s : Battlesnake) : Bool :=
  Battlesnake.head_collide_body s.head s.body

/-- `Battlesnake::dies_head_to_head`: heads intersect and the OTHER body is
strictly longer. -/
def Battlesnake.dies_head_to_head (s other : Battlesnake) : Bool :=
  s.head.intersect other.head && other.body.length > s.body.length

/-- `Battlesnake::body_collision`. -/
def Battlesnake.body_collision (s other : Battlesnake) : Bool :=
  Battlesnake.head_collide_body s.head other.body

/-- `Battlesnake::collides_with`: scan all snakes, skipping eliminated ones. -/
def Battlesnake.collides_with (s : Battlesnake) (snakes : List Battlesnake) : Bool :=
  snakes.any (fun other =>
    !other.is_eliminated && (s.dies_head_to_head other || s.body_collision other))

/-- One snake of `Board::move_snake`'s loop body, for a matching id: rotate the
tail into the head slot and overwrite it with the new head. -/
def move_one (dir : Int × Int) (s : Battlesnake) : Battlesnake :=
  match s.body with
  | [] => s
  | b0 :: _ =>
    let new_head : Coord := ⟨b0.x + dir.2, b0.y + dir.1⟩
    { s with body := new_head :: s.body.dropLast, head := new_head }

/-- `Board::move_snake`'s loop: every snake is checked for a zero-length body and
for being eliminated (a panic in the source, an error here) before the snake with
the matching id (if any) is moved; a missing id moves no one. -/
def move_go (snake_id : String) (dir : Int × Int) : List Battlesnake → Except String (List Battlesnake)
  | [] => .ok []
  | s :: rest =>
    if s.body.length == 0 then .error "trying to move snakes with zero length body"
    else if s.is_eliminated then .error "Trying to move an eliminated snake"
    else do
      let rest' ← move_go snake_id dir rest
      .ok ((if snake_id == s.id then move_one dir s else s) :: rest')

/-- `Board::move_snake`. -/
def Board.move_snake (b : Board) (snake_id : String) (dir : Int × Int) : Except String Board :=
  (move_go snake_id dir b.snakes).map (fun l => { b with snakes := l })

/-- `Battlesnake::snake_is_out_of_bounds`: checks `body.get(0).unwrap()`.  The
source unwrap panics on an empty body, but the only caller (`eliminate_snakes`)
has already panicked on a zero-length body, so the `none` arm is unreachable
from it. -/
def Battlesnake.snake_is_out_of_bounds (s : Battlesnake) (height width : Int) : Bool :=
  match s.body.head? with
  | none => false
  | some head => head.x ≥ width || head.x < 0 || head.y ≥ height || head.y < 0

/-- One snake of `Board::eliminate_snakes`: skip eliminated snakes, panic on a
zero-length body, then eliminate on out-of-health, out-of-bounds or self-collision. -/
def eliminate_one (height width : Int) (s : Battlesnake) : Except String Battlesnake :=
  if s.is_eliminated then .ok s
  else if s.body.length ≤ 0 then .error "Zero length snake"
  else if s.out_of_health then .ok s.eliminate
  else if s.snake_is_out_of_bounds height width then .ok s.eliminate
  else if s.self_collision then .ok s.self_eliminate
  else .ok s

/-- `Board::eliminate_snakes`' loop over the snake list. -/
def eliminate_go (height width : Int) : List Battlesnake → Except String (List Battlesnake)
  | [] => .ok []
  | s :: rest => do
    let s' ← eliminate_one height width s
    let rest' ← eliminate_go height width rest
    .ok (s' :: rest')

/-- `Board::eliminate_snakes`. -/
def Board.eliminate_snakes (b : Board) : Except String Board :=
  (eliminate_go b.height b.width b.snakes).map (fun l => { b with snakes := l })

/-- The `is_eliminated` HashMap of `Board::eliminate_via_collisions`: the map is
keyed by snake id, so with duplicate ids the last insertion wins; the lookup for a
snake therefore sees the collision flag of the last snake carrying the same id. -/
def collision_flag (snakes : List Battlesnake) (id : String) : Bool :=
  match (snakes.filter (fun t => t.id == id)).getLast? with
  | some t => t.collides_with snakes
  | none => false

/-- `Board::eliminate_via_collisions`: compute all flags against the pre-pass
snake list, then eliminate the flagged snakes. -/
def Board.eliminate_via_collisions (b : Board) : Board :=
  { b with snakes := b.snakes.map (fun s =>
      if collision_flag b.snakes s.id then s.eliminate else s) }

/-- `Board::reduce_snake_health`: reduce EVERY snake's health, with no check of
the elimination cause. -/
def Board.reduce_snake_health (b : Board) : Board :=
  { b with snakes := b.snakes.map Battlesnake.reduce_health }

/-- One snake of `Board::feed_snakes`' inner loop for a fixed food cell.  The
source guard `if let None = eliminated_cause { if body.len() == 0 { continue } }`
skips only LIVING snakes with an empty body; an eliminated snake falls through to
the food check (and `body.get(0).unwrap()` panics when its body is empty). -/
def feed_one_snake (food : Coord) (s : Battlesnake) : Except String (Battlesnake × Bool) :=
  if s.eliminated_cause.isNone && s.body.isEmpty then .ok (s, false)
  else match s.body.head? with
  | none => .error "called Option::unwrap on a None value"
  | some b0 => if b0.intersect food then .ok (s.feed_snake, true) else .ok (s, false)

/-- `Board::feed_snakes`' inner loop over the snakes for one food cell; the flag
records whether any snake ate this food. -/
def feed_go (food : Coord) : List Battlesnake → Except String (List Battlesnake × Bool)
  | [] => .ok ([], false)
  | s :: rest => do
    let (s', ate) ← feed_one_snake food s
    let (rest', ate') ← feed_go food rest
    .ok (s' :: rest', ate || ate')

/-- `Board::feed_snakes`' outer loop over the food list, threading the mutated
snake list and accumulating the uneaten food in order. -/
def feed_foods : List Coord → List Battlesnake → Except String (List Battlesnake × List Coord)
  | [], snakes => .ok (snakes, [])
  | f :: fs, snakes => do
    let (snakes', eaten) ← feed_go f snakes
    let (snakes'', kept) ← feed_foods fs snakes'
    .ok (snakes'', if eaten then kept else f :: kept)

/-- `Board::feed_snakes`. -/
def Board.feed_snakes (b : Board) : Except String Board :=
  (feed_foods b.food b.snakes).map (fun p => { b with snakes := p.1, food := p.2 })

/-- `Board::get_endstate`'s counting loop: count the living snakes and remember
the id of the last living snake seen. -/
def endstate_step (p : Nat × String) (s : Battlesnake) : Nat × String :=
  if s.eliminated_cause.isNone then (p.1 + 1, s.id) else p

/-- `Board::get_endstate`. -/
def Board.get_endstate (b : Board) : EndState :=
  let r := b.snakes.foldl endstate_step (0, "")
  if r.1 == 1 then .Winner r.2
  else if r.1 == 0 then .TIE
  else .Playing

/-- `Board::is_terminal`. -/
def Board.is_terminal (b : Board) : Bool :=
  match b.get_endstate with
  | .Winner _ => true
  | .Playing => false
  | .TIE => true

/-- `Board::get_snake`: linear search, panic ("Snake not found") when absent. -/
def Board.get_snake (b : Board) (snake_id : String) : Except String Battlesnake :=
  match b.snakes.find? (fun s => s.id == snake_id) with
  | some s => .ok s
  | none => .error "Snake not found"

/-- `Board::execute`: early-return a resolved end state; otherwise move the named
snake, run single-snake eliminations, and — only for the last snake of the round —
reduce health, feed, re-eliminate and resolve inter-snake collisions. -/
def Board.execute (b : Board) (snake_id : String) (dir : Int × Int) (last_snake : Bool) :
    Except String (Board × EndState) :=
  match b.get_endstate with
  | .Winner w => .ok (b, .Winner w)
  | .TIE => .ok (b, .TIE)
  | .Playing => do
    let b1 ← b.move_snake snake_id dir
    let b2 ← b1.eliminate_snakes
    if !last_snake then .ok (b2, .Playing)
    else do
      let b3 := b2.reduce_snake_health
      let b4 ← b3.feed_snakes
      let b5 ← b4.eliminate_snakes
      let b6 := b5.eliminate_via_collisions
      .ok (b6, b6.get_endstate)

/-- `Board::execute_action`. -/
def Board.execute_action (b : Board) (a : Action) (last_snake : Bool) :
    Except String (Board × EndState) :=
  b.execute a.snake_id a.dir last_snake

/-!
The `f32` values manipulated by `minimax.rs` are modelled by `FF`: a finite
rational, NaN, or a signed infinity.  All quantities the scorer produces on the
boards the claims quantify over (0, 100000, 200000, sums of small integers) are
exactly representable in `f32` and the operations on them are exact, so `FF.fin`
with exact rational arithmetic is faithful there; the IEEE special cases
(0/0 = NaN, x/0 = ±inf, NaN propagation, all comparisons with NaN false) are
carried by the other constructors.
-/
inductive FF where
  | fin (q : ℚ)
  | nan
  | inf
  | ninf
deriving DecidableEq, Inhabited

/-- Kernel-computable rational addition (the field operations of `ℚ` do not
reduce inside the kernel); proved equal to `+` in `qadd_eq` below. -/
def qadd (a b : ℚ) : ℚ :=
  mkRat (a.num * b.den + b.num * a.den) (a.den * b.den)

/-- Kernel-computable rational subtraction; proved equal to `-` below. -/
def qsub (a b : ℚ) : ℚ :=
  mkRat (a.num * b.den - b.num * a.den) (a.den * b.den)

/-- Kernel-computable rational multiplication; proved equal to `*` below. -/
def qmul (a b : ℚ) : ℚ :=
  mkRat (a.num * b.num) (a.den * b.den)

/-- Kernel-computable rational division; proved equal to `/` below
(both send division by zero to zero). -/
def qdiv (a b : ℚ) : ℚ :=
  if b.num < 0 then mkRat (-(a.num * b.den)) (a.den * b.num.natAbs)
  else mkRat (a.num * b.den) (a.den * b.num.natAbs)

/-- IEEE addition on the `FF` model. -/
def FF.add : FF → FF → FF
  | .fin a, .fin b => .fin (qadd a b)
  | .nan, _ => .nan
  | _, .nan => .nan
  | .inf, .ninf => .nan
  | .ninf, .inf => .nan
  | .inf, _ => .inf
  | _, .inf => .inf
  | .ninf, _ => .ninf
  | _, .ninf => .ninf

/-- IEEE subtraction on the `FF` model. -/
def FF.sub : FF → FF → FF
  | .fin a, .fin b => .fin (qsub a b)
  | .nan, _ => .nan
  | _, .nan => .nan
  | .inf, .inf => .nan
  | .ninf, .ninf => .nan
  | .inf, _ => .inf
  | .ninf, _ => .ninf
  | .fin _, .inf => .ninf
  | .fin _, .ninf => .inf

/-- IEEE multiplication on the `FF` model. -/
def FF.mul : FF → FF → FF
  | .fin a, .fin b => .fin (qmul a b)
  | .nan, _ => .nan
  | _, .nan => .nan
  | .inf, .inf => .inf
  | .inf, .ninf => .ninf
  | .ninf, .inf => .ninf
  | .ninf, .ninf => .inf
  | .inf, .fin b => if b == 0 then .nan else if b > 0 then .inf else .ninf
  | .fin a, .inf => if a == 0 then .nan else if a > 0 then .inf else .ninf
  | .ninf, .fin b => if b == 0 then .nan else if b > 0 then .ninf else .inf
  | .fin a, .ninf => if a == 0 then .nan else if a > 0 then .ninf else .inf

/-- IEEE division on the `FF` model: 0/0 is NaN and x/0 is a signed infinity. -/
def FF.div : FF → FF → FF
  | .fin a, .fin b =>
    if b == 0 then (if a == 0 then .nan else if a > 0 then .inf else .ninf)
    else .fin (qdiv a b)
  | .nan, _ => .nan
  | _, .nan => .nan
  | .inf, .inf => .nan
  | .inf, .ninf => .nan
  | .ninf, .inf => .nan
  | .ninf, .ninf => .nan
  | .inf, .fin b => if b < 0 then .ninf else .inf
  | .ninf, .fin b => if b < 0 then .inf else .ninf
  | .fin _, .inf => .fin 0
  | .fin _, .ninf => .fin 0

/-- The `f32` strict order: every comparison involving NaN is false. -/
def FF.gt : FF → FF → Bool
  | .fin a, .fin b => decide (b < a)
  | .nan, _ => false
  | _, .nan => false
  | .inf, .inf => false
  | .inf, _ => true
  | _, .inf => false
  | .ninf, _ => false
  | .fin _, .ninf => true

/-- The four neighbour cells of a coordinate. -/
def neighbor_cells (c : Coord) : List Coord :=
  [⟨c.x + 1, c.y⟩, ⟨c.x - 1, c.y⟩, ⟨c.x, c.y + 1⟩, ⟨c.x, c.y - 1⟩]

/-- Fuel-bounded breadth-first expansion used by the modelled flood fill. -/
def floodfill_loop (width height : Int) (blocked : List Coord) :
    Nat → List Coord → List Coord → List Coord
  | 0, visited, _ => visited
  | fuel + 1, visited, frontier =>
    let fresh := ((frontier.flatMap neighbor_cells).filter (fun c =>
      0 ≤ c.x && c.x < width && 0 ≤ c.y && c.y < height
        && !blocked.contains c && !visited.contains c)).dedup
    if fresh.isEmpty then visited
    else floodfill_loop width height blocked fuel (visited ++ fresh) fresh

/-- Modelled from the spec: `floodfill::floodfill` (its source file is not part
of the provided sources).  "Reachable area: count of empty cells reachable from
an agent's head without crossing any snake body", input board + agent id, output
a scalar reachable-area estimate.  Cells are counted starting from the agent's
head; no claim verified below ever evaluates this function. -/
def floodfill (b : Board) (snake_id : String) : Nat :=
  match b.snakes.find? (fun s => s.id == snake_id) with
  | none => 0
  | some s =>
    let blocked := (b.snakes.map (fun t => t.body)).flatten
    (floodfill_loop b.width b.height blocked (b.width * b.height).toNat
      [s.head] [s.head]).length

/-- `minimax::NodeState`. -/
structure NodeState where
  board_state : Board
deriving DecidableEq, Inhabited

/-- `NodeState::calculate_raw_score_per_snake`.  For a `Winner` end state the
leading `if let` returns for every snake, so the secondary match's
`f32::NEG_INFINITY` arm of the source is unreachable and has no counterpart
here; a `TIE` yields 0; otherwise the health/length/flood-fill heuristic with
weights LIFE_V = 1, LENGTH_V = 100, FILL_V = 1. -/
def calculate_raw_score_per_snake (snake_id : String) (end_state : EndState)
    (board : Board) : Except String FF :=
  match end_state with
  | .Winner winner => if winner == snake_id then .ok (.fin 200000) else .ok (.fin 0)
  | .TIE => .ok (.fin 0)
  | .Playing => do
    let fill := floodfill board snake_id
    let snake ← board.get_snake snake_id
    let health_score : ℚ := snake.health
    let length_score : ℚ := snake.body.length
    .ok (FF.add (FF.add (FF.mul (.fin health_score) (.fin 1))
      (FF.mul (.fin length_score) (.fin 100))) (FF.mul (.fin fill) (.fin 1)))

/-- The `scores` vector of `NodeState::generate_score_array`: one raw score per
snake, in snake order. -/
def raw_scores (end_state : EndState) (board : Board) :
    List Battlesnake → Except String (List FF)
  | [] => .ok []
  | s :: rest => do
    let x ← calculate_raw_score_per_snake s.id end_state board
    let xs ← raw_scores end_state board rest
    .ok (x :: xs)

/-- `NodeState::generate_score_array`: raw scores, summed with `fold(0.0, +)`,
then each score normalized by `(x / total) * 200000`. -/
def generate_score_array (n : NodeState) : Except String (List FF) := do
  let board := n.board_state
  let end_state := board.get_endstate
  let scores ← raw_scores end_state board board.snakes
  let total_score := scores.foldl FF.add (.fin 0)
  .ok (scores.map (fun x => FF.mul (FF.div x total_score) (.fin 200000)))

/-- Modelled from the spec: `utils::DIRECTIONS` (its source file is not part of
the provided sources).  "One of four unit vectors: up/down/left/right",
enumerated in a fixed order; as in `simulation.rs`, a direction pair is
(y-delta, x-delta). -/
def DIRECTIONS : List (Int × Int) :=
  [(1, 0), (-1, 0), (0, -1), (0, 1)]

/-- Lookup in the id-to-index map; indexing a Rust `HashMap` with a missing key
panics, modelled as an error. -/
def map_get (m : List (String × Nat)) (k : String) : Except String Nat :=
  match m.find? (fun p => p.1 == k) with
  | some p => .ok p.2
  | none => .error "key not found in snake_map"

/-- `HashMap::insert`: replace the value of an existing key, else append. -/
def map_insert (m : List (String × Nat)) (k : String) (v : Nat) : List (String × Nat) :=
  if m.any (fun p => p.1 == k) then m.map (fun p => if p.1 == k then (k, v) else p)
  else m ++ [(k, v)]

/-- Rust `Vec` indexing: out of bounds panics, modelled as an error. -/
def vec_get (l : List FF) (i : Nat) : Except String FF :=
  match l.get? i with
  | some x => .ok x
  | none => .error "index out of bounds"

/-- `minimax::Tree`: the fixed turn order captured at construction time. -/
structure Tree where
  snake_map : List (String × Nat)
  snake_vec : List String
  root : NodeState
deriving DecidableEq, Inhabited

/-- `Tree::MAX_DEPTH`. -/
def Tree.MAX_DEPTH : Nat := 10

/-- `Tree::new`: record each snake's id and its index in the board's snake
collection. -/
def Tree.new (starting_board : Board) : Tree :=
  { snake_map := starting_board.snakes.enum.foldl
      (fun m p => map_insert m p.2.id p.1) []
    snake_vec := starting_board.snakes.map (fun s => s.id)
    root := ⟨starting_board⟩ }

/-- `Tree::get_next_snake`: round-robin successor by index. -/
def Tree.get_next_snake (t : Tree) (current_snake : String) : Except String String := do
  let i ← map_get t.snake_map current_snake
  match t.snake_vec.get? ((i + 1) % t.snake_vec.length) with
  | some s => .ok s
  | none => .error "index out of bounds"

/-- `Tree::is_last_nake`: the current snake occupies the last index. -/
def Tree.is_last_nake (t : Tree) (current_snake : String) : Except String Bool := do
  let i ← map_get t.snake_map current_snake
  .ok (i + 1 == t.snake_vec.length)

/-- The direction loop of `Tree::get_score`: alpha pruning against the inherited
`alphas`, then execute the action (with `is_last_nake` for the round flag),
recurse via `rec` into the next snake, and keep the move maximizing the current
snake's coordinate, rebuilding `new_alphas` on improvement.  `ci` is
`snake_map[current_snake]`. -/
def score_dirs (t : Tree)
    (rec : NodeState → List FF → String → Except String (List FF × (Int × Int)))
    (board : Board) (alphas : List FF) (current : String) (ci : Nat) :
    List (Int × Int) → List FF → (Int × Int) → List FF →
    Except String (List FF × (Int × Int))
  | [], max_score, best_dir, _ => .ok (max_score, best_dir)
  | dir :: rest, max_score, best_dir, new_alphas => do
    let pruned ←
      if max_score.length > 0 then do
        let m ← vec_get max_score ci
        let a ← vec_get alphas ci
        pure (FF.gt m a)
      else pure false
    if pruned then .ok (max_score, best_dir)
    else do
      let last ← t.is_last_nake current
      let (board_copy, _) ← board.execute_action ⟨current, dir⟩ last
      let nxt ← t.get_next_snake current
      let (new_score, _) ← rec ⟨board_copy⟩ new_alphas nxt
      let take ←
        if max_score.length == 0 then pure true
        else do
          let ns ← vec_get new_score ci
          let ms ← vec_get max_score ci
          pure (FF.gt ns ms)
      if take then do
        let msci ← vec_get new_score ci
        let na := (List.range new_alphas.length).map
          (fun i => if i == ci then msci else FF.sub (.fin 200000) msci)
        score_dirs t rec board alphas current ci rest new_score dir na
      else
        score_dirs t rec board alphas current ci rest max_score best_dir new_alphas

/-- `Tree::get_score`, with the remaining depth `MAX_DEPTH - depth` as fuel:
at the depth bound or a terminal board return the score array with the default
direction (1, 0); otherwise run the direction loop starting from an empty
`max_score` and `new_alphas = alphas`. -/
def get_score (t : Tree) : Nat → NodeState → List FF → String →
    Except String (List FF × (Int × Int))
  | 0, node, _, _ => do
    let s ← generate_score_array node
    .ok (s, (1, 0))
  | fuel + 1, node, alphas, current =>
    if node.board_state.is_terminal then do
      let s ← generate_score_array node
      .ok (s, (1, 0))
    else do
      let ci ← map_get t.snake_map current
      score_dirs t (fun n a c => get_score t fuel n a c) node.board_state alphas
        current ci DIRECTIONS [] (1, 0) alphas

/-- `Tree::get_best_move`: start the recursion at depth 0 on the root board with
alphas all MAX_SCORE and `current_snake = target_snake_id` (the REQUESTED
snake), and return the best direction. -/
def Tree.get_best_move (t : Tree) (target_snake_id : String) :
    Except String (Int × Int) := do
  let alphas := List.replicate t.root.board_state.snakes.length (FF.fin 200000)
  let r ← get_score t Tree.MAX_DEPTH t.root alphas target_snake_id
  .ok r.2

/-- The same search launched from an arbitrary starting snake; `Tree.get_best_move`
is exactly this at the requested snake. -/
def get_best_move_from (t : Tree) (start : String) : Except String (Int × Int) := do
  let alphas := List.replicate t.root.board_state.snakes.length (FF.fin 200000)
  let r ← get_score t Tree.MAX_DEPTH t.root alphas start
  .ok r.2

/-- The spec's claimed initial state: the search launched from the FIRST snake
in turn order. -/
def get_best_move_spec_first (t : Tree) : Except String (Int × Int) :=
  match t.snake_vec.head? with
  | none => .error "no snakes"
  | some first => get_best_move_from t first

deriving instance DecidableEq for Except

/-! Concrete boards used by the counterexamples and witnesses below. -/

/-- Two living snakes of EQUAL length whose heads share the cell (3, 3) and
which otherwise touch nothing. -/
def h2h_equal_board : Board :=
  ⟨10, 10, [], [⟨"a", [⟨3, 3⟩, ⟨3, 2⟩], ⟨3, 3⟩, 90, none⟩,
                ⟨"b", [⟨3, 3⟩, ⟨4, 3⟩], ⟨3, 3⟩, 90, none⟩]⟩

/-- The shorter snake of the strict head-to-head configuration. -/
def h2h_short : Battlesnake := ⟨"a", [⟨3, 3⟩, ⟨3, 2⟩], ⟨3, 3⟩, 90, none⟩

/-- The strictly longer snake of the strict head-to-head configuration. -/
def h2h_long : Battlesnake := ⟨"b", [⟨3, 3⟩, ⟨4, 3⟩, ⟨5, 3⟩], ⟨3, 3⟩, 90, none⟩

/-- A strictly longer "b" (length 3) meets "a" (length 2) head to head. -/
def h2h_longer_board : Board :=
  ⟨10, 10, [], [h2h_short, h2h_long]⟩

/-- Snake "a" (health 50) will self-collide onto the food cell (2, 1) when moved
right: food sits under its own body segment. -/
def feed_dead_board : Board :=
  ⟨10, 10, [⟨2, 1⟩], [⟨"a", [⟨1, 1⟩, ⟨2, 1⟩, ⟨9, 9⟩, ⟨8, 8⟩], ⟨1, 1⟩, 50, none⟩,
                      ⟨"b", [⟨5, 5⟩, ⟨5, 6⟩], ⟨5, 5⟩, 100, none⟩]⟩

/-- The board `feed_dead_board` becomes after `execute "a" (0, 1) true`. -/
def feed_dead_board_after : Board :=
  ⟨10, 10, [], [⟨"a", [⟨2, 1⟩, ⟨1, 1⟩, ⟨2, 1⟩, ⟨9, 9⟩, ⟨9, 9⟩], ⟨2, 1⟩, 100,
                 some "eliminated itself"⟩,
                ⟨"b", [⟨5, 5⟩, ⟨5, 6⟩], ⟨5, 5⟩, 99, none⟩]⟩

/-- A plain two-snake Playing board on which every snake is alive with a
non-empty body; no snake is named "ghost". -/
def ghost_board : Board :=
  ⟨10, 10, [], [⟨"a", [⟨1, 1⟩, ⟨1, 2⟩], ⟨1, 1⟩, 90, none⟩,
                ⟨"b", [⟨5, 5⟩, ⟨5, 6⟩], ⟨5, 5⟩, 90, none⟩]⟩

/-- The board `ghost_board` becomes after `execute "a" (1, 0) false`. -/
def ghost_board_after : Board :=
  ⟨10, 10, [], [⟨"a", [⟨1, 2⟩, ⟨1, 1⟩], ⟨1, 2⟩, 90, none⟩,
                ⟨"b", [⟨5, 5⟩, ⟨5, 6⟩], ⟨5, 5⟩, 90, none⟩]⟩

/-- Snake "b" (health 50) moves out of bounds on a 3 × 3 board while "a" stays
safe: "b" is eliminated during the round yet its health is reduced. -/
def oob_board : Board :=
  ⟨3, 3, [], [⟨"a", [⟨0, 0⟩, ⟨0, 1⟩], ⟨0, 0⟩, 80, none⟩,
              ⟨"b", [⟨2, 2⟩, ⟨1, 2⟩], ⟨2, 2⟩, 50, none⟩]⟩

/-- A Tie board: its only snake is eliminated. -/
def tie_board : Board :=
  ⟨5, 5, [], [⟨"a", [⟨1, 1⟩], ⟨1, 1⟩, 0, some "DED"⟩]⟩

/-- A Tie board with two eliminated snakes: every raw score is 0. -/
def tie2_board : Board :=
  ⟨5, 5, [], [⟨"a", [⟨1, 1⟩], ⟨1, 1⟩, 0, some "DED"⟩,
              ⟨"b", [⟨2, 2⟩], ⟨2, 2⟩, 0, some "DED"⟩]⟩

/-- A Winner board: "b" is the unique living snake. -/
def winner_board : Board :=
  ⟨5, 5, [], [⟨"a", [⟨1, 1⟩], ⟨1, 1⟩, 0, some "DED"⟩,
              ⟨"b", [⟨2, 2⟩, ⟨2, 3⟩], ⟨2, 2⟩, 70, none⟩]⟩

/-- A two-snake board for the search-tree claims: "a" (index 0) is trapped in
the lower-left corner (every move self-collides or leaves the board), "b"
(index 1) sits in the lower-right corner with exactly one surviving move,
left. -/
def search_board : Board :=
  ⟨10, 10, [], [⟨"a", [⟨0, 0⟩, ⟨0, 1⟩, ⟨1, 0⟩, ⟨5, 5⟩], ⟨0, 0⟩, 50, none⟩,
                ⟨"b", [⟨9, 0⟩, ⟨9, 1⟩, ⟨7, 0⟩, ⟨6, 6⟩], ⟨9, 0⟩, 30, none⟩]⟩

/-- The tree built over `search_board`. -/
def search_tree : Tree := Tree.new search_board

/-- A Playing board that also CONTAINS an eliminated third snake. -/
def stale_board : Board :=
  ⟨10, 10, [], [⟨"a", [⟨1, 1⟩, ⟨1, 2⟩], ⟨1, 1⟩, 90, none⟩,
                ⟨"b", [⟨5, 5⟩, ⟨5, 6⟩], ⟨5, 5⟩, 90, none⟩,
                ⟨"c", [⟨7, 7⟩], ⟨7, 7⟩, 0, some "DED"⟩]⟩

/-! Per-snake effect relations of the individual phases of `Board::execute`,
used to track each snake positionally through a full round. -/

/-- Effect of `move_snake` on one snake: the pre-move checks passed (non-empty
body, not eliminated) and the snake was moved exactly when its id matches. -/
def MoveR (snake_id : String) (dir : Int × Int) (s s' : Battlesnake) : Prop :=
  s.body.length ≠ 0 ∧ s.eliminated_cause = none ∧
    s' = (if snake_id == s.id then move_one dir s else s)

/-- Effect of `eliminate_snakes` on one snake: id, health and body are
untouched; an already-eliminated snake is skipped; a snake that is still alive
afterwards is untouched and had positive health. -/
def ElimR (s s' : Battlesnake) : Prop :=
  s'.id = s.id ∧ s'.health = s.health ∧ s'.body = s.body ∧
    (s.eliminated_cause ≠ none → s' = s) ∧
    (s'.eliminated_cause = none → s' = s ∧ s.health ≠ 0)

/-- Cumulative effect of `feed_snakes` on one snake: id and elimination cause
are untouched, the health is 100 (fed at least once) or untouched, and the body
never shrinks. -/
def FeedR (s s' : Battlesnake) : Prop :=
  s'.id = s.id ∧ s'.eliminated_cause = s.eliminated_cause ∧
    (s'.health = 100 ∨ s'.health = s.health) ∧ s.body.length ≤ s'.body.length

/-- Effect of `eliminate_via_collisions` on one snake: id, health and body are
untouched and the cause is either kept or overwritten with "DED". -/
def CollR (s s' : Battlesnake) : Prop :=
  s'.id = s.id ∧ s'.health = s.health ∧ s'.body = s.body ∧
    (s'.eliminated_cause = s.eliminated_cause ∨ s'.eliminated_cause = some "DED")

/-! The kernel-computable rational operations agree with the field operations
of `ℚ`. -/

theorem qadd_eq (a b : ℚ) : qadd a b = a + b := by
  have ha : (a.den : ℚ) ≠ 0 := by exact_mod_cast a.den_nz
  have hb : (b.den : ℚ) ≠ 0 := by exact_mod_cast b.den_nz
  rw [qadd, Rat.mkRat_eq_div]
  push_cast
  conv_rhs => rw [← Rat.num_div_den a, ← Rat.num_div_den b]
  rw [div_add_div _ _ ha hb]
  ring_nf

theorem qsub_eq (a b : ℚ) : qsub a b = a - b := by
  have ha : (a.den : ℚ) ≠ 0 := by exact_mod_cast a.den_nz
  have hb : (b.den : ℚ) ≠ 0 := by exact_mod_cast b.den_nz
  rw [qsub, Rat.mkRat_eq_div]
  push_cast
  conv_rhs => rw [← Rat.num_div_den a, ← Rat.num_div_den b]
  rw [div_sub_div _ _ ha hb]
  ring_nf

theorem qmul_eq (a b : ℚ) : qmul a b = a * b := by
  have ha : (a.den : ℚ) ≠ 0 := by exact_mod_cast a.den_nz
  have hb : (b.den : ℚ) ≠ 0 := by exact_mod_cast b.den_nz
  rw [qmul, Rat.mkRat_eq_div]
  push_cast
  conv_rhs => rw [← Rat.num_div_den a, ← Rat.num_div_den b]
  rw [div_mul_div_comm]

theorem qdiv_eq (a b : ℚ) : qdiv a b = a / b := by
  rw [qdiv]
  by_cases h0 : b.num = 0
  · have hb : b = 0 := Rat.num_eq_zero.mp h0
    subst hb
    norm_num
  · have had : (a.den : ℚ) ≠ 0 := by exact_mod_cast a.den_nz
    have hbd : (b.den : ℚ) ≠ 0 := by exact_mod_cast b.den_nz
    have hbn : (b.num : ℚ) ≠ 0 := by exact_mod_cast h0
    rcases lt_trichotomy b.num 0 with hlt | heq | hgt
    · have habs : (b.num.natAbs : ℚ) = -(b.num : ℚ) := by
        rw [Int.cast_natAbs]
        exact_mod_cast abs_of_neg hlt
      rw [if_pos hlt, Rat.mkRat_eq_div]
      push_cast [habs]
      conv_rhs => rw [← Rat.num_div_den a, ← Rat.num_div_den b]
      field_simp
    · exact absurd heq h0
    · have habs : (b.num.natAbs : ℚ) = (b.num : ℚ) := by
        rw [Int.cast_natAbs]
        exact_mod_cast abs_of_pos hgt
      rw [if_neg (by omega), Rat.mkRat_eq_div]
      push_cast [habs]
      conv_rhs => rw [← Rat.num_div_den a, ← Rat.num_div_den b]
      field_simp

theorem endstate_foldl (l : List Battlesnake) (n : Nat) (d : String) :
    l.foldl endstate_step (n, d) =
      (n + (l.filter (fun s => s.eliminated_cause.isNone)).length,
       ((l.filter (fun s => s.eliminated_cause.isNone)).map Battlesnake.id).getLastD d) := by
  induction l generalizing n d with
  | nil => simp
  | cons s rest ih =>
    by_cases h : s.eliminated_cause.isNone
    · simp only [List.foldl_cons, endstate_step, h, if_true, ih, List.filter_cons,
        List.map_cons, List.getLastD_cons, List.length_cons, Prod.mk.injEq]
      exact ⟨by omega, trivial⟩
    · simp only [List.foldl_cons, endstate_step, h, if_false, ih, List.filter_cons,
        Bool.false_eq_true]

theorem get_endstate_eq (b : Board) :
    b.get_endstate =
      (if (b.snakes.filter (fun s => s.eliminated_cause.isNone)).length == 1
       then EndState.Winner
         (((b.snakes.filter (fun s => s.eliminated_cause.isNone)).map Battlesnake.id).getLastD "")
       else if (b.snakes.filter (fun s => s.eliminated_cause.isNone)).length == 0
       then .TIE else .Playing) := by
  unfold Board.get_endstate
  rw [endstate_foldl b.snakes 0 ""]
  simp only [Nat.zero_add]

/-- C9: `get_endstate` returns `Winner id` exactly when exactly one snake has no
elimination cause and `id` is that snake's identifier, `TIE` exactly when no
snake lacks an elimination cause, and `Playing` exactly when two or more snakes
lack one; being a pure function of the board, computing it twice without an
intervening `execute` yields identical results. -/
theorem get_endstate_characterization (b : Board) :
    (b.get_endstate = .Playing ↔
      2 ≤ (b.snakes.filter (fun s => s.eliminated_cause.isNone)).length)
    ∧ (b.get_endstate = .TIE ↔
      (b.snakes.filter (fun s => s.eliminated_cause.isNone)).length = 0)
    ∧ (∀ w, b.get_endstate = .Winner w ↔
      ∃ s, b.snakes.filter (fun s => s.eliminated_cause.isNone) = [s] ∧ s.id = w)
    ∧ b.get_endstate = b.get_endstate := by
  have hg := get_endstate_eq b
  rcases hl : (b.snakes.filter (fun s => s.eliminated_cause.isNone)).length with _ | _ | k
  · rw [hl] at hg
    norm_num at hg
    have hnil : b.snakes.filter (fun s => s.eliminated_cause.isNone) = [] :=
      List.length_eq_zero.mp hl
    refine ⟨by simp [hg, hl], by simp [hg, hl], ?_, rfl⟩
    intro w
    simp [hg, hnil]
  · rcases List.length_eq_one.mp hl with ⟨s, hs⟩
    rw [hl] at hg
    norm_num [hs] at hg
    refine ⟨by simp [hg, hl], by simp [hg, hl], ?_, rfl⟩
    intro w
    rw [hg, hs]
    constructor
    · intro h
      cases h
      exact ⟨s, rfl, rfl⟩
    · rintro ⟨t, ht, hw⟩
      cases ht
      cases hw
      rfl
  · rw [hl] at hg
    norm_num at hg
    refine ⟨by simp [hg, hl], by simp [hg, hl], ?_, rfl⟩
    intro w
    rw [hg]
    constructor
    · intro h
      cases h
    · rintro ⟨t, ht, hw⟩
      rw [ht] at hl
      simp at hl

/-! Generic `List.Forall₂` helpers. -/

theorem forall2_map_self {α : Type} {R : α → α → Prop} {l : List α} {f : α → α}
    (h : ∀ a ∈ l, R a (f a)) : List.Forall₂ R l (l.map f) := by
  induction l with
  | nil => simp
  | cons a rest ih =>
    exact List.Forall₂.cons (h a (List.mem_cons_self a rest))
      (ih (fun x hx => h x (List.mem_cons_of_mem a hx)))

theorem forall2_ids {R : Battlesnake → Battlesnake → Prop} {l l' : List Battlesnake}
    (h : List.Forall₂ R l l') (hid : ∀ s s', R s s' → s'.id = s.id) :
    l'.map Battlesnake.id = l.map Battlesnake.id := by
  induction h with
  | nil => rfl
  | cons hr _ ih => simp [hid _ _ hr, ih]

theorem forall2_mem_right {R : Battlesnake → Battlesnake → Prop}
    {l l' : List Battlesnake} (h : List.Forall₂ R l l') {s' : Battlesnake}
    (hm : s' ∈ l') : ∃ s ∈ l, R s s' := by
  induction h with
  | nil => cases hm
  | cons hr _ ih =>
    rcases List.mem_cons.mp hm with rfl | hm'
    · exact ⟨_, List.mem_cons_self _ _, hr⟩
    · rcases ih hm' with ⟨s, hs, hrs⟩
      exact ⟨s, List.mem_cons_of_mem _ hs, hrs⟩

theorem forall2_mem_left {R : Battlesnake → Battlesnake → Prop}
    {l l' : List Battlesnake} (h : List.Forall₂ R l l') {s : Battlesnake}
    (hm : s ∈ l) : ∃ s' ∈ l', R s s' := by
  induction h with
  | nil => cases hm
  | cons hr _ ih =>
    rcases List.mem_cons.mp hm with rfl | hm'
    · exact ⟨_, List.mem_cons_self _ _, hr⟩
    · rcases ih hm' with ⟨t, ht, hrt⟩
      exact ⟨t, List.mem_cons_of_mem _ ht, hrt⟩

/-! Phase lemmas: `move_snake`. -/

theorem move_one_fields (dir : Int × Int) (s : Battlesnake) :
    (move_one dir s).id = s.id ∧ (move_one dir s).health = s.health ∧
      (move_one dir s).eliminated_cause = s.eliminated_cause := by
  cases hb : s.body <;> simp [move_one, hb]

theorem move_one_length (dir : Int × Int) (s : Battlesnake) (h : s.body ≠ []) :
    (move_one dir s).body.length = s.body.length := by
  cases hb : s.body with
  | nil => exact absurd hb h
  | cons b0 r => simp [move_one, hb]

theorem move_go_ok {snake_id : String} {dir : Int × Int} {l l' : List Battlesnake}
    (h : move_go snake_id dir l = .ok l') :
    List.Forall₂ (MoveR snake_id dir) l l' := by
  induction l generalizing l' with
  | nil =>
    simp only [move_go] at h
    cases h
    exact List.Forall₂.nil
  | cons s rest ih =>
    simp only [move_go] at h
    by_cases h0 : s.body.length == 0
    · simp [h0] at h
    · rw [if_neg h0] at h
      by_cases h1 : s.is_eliminated
      · simp [h1] at h
      · rw [if_neg h1] at h
        cases hrest : move_go snake_id dir rest with
        | error e => rw [hrest] at h; simp [Bind.bind, Except.bind] at h
        | ok r =>
          rw [hrest] at h
          simp only [Bind.bind, Except.bind, Except.ok.injEq] at h
          cases h
          refine List.Forall₂.cons ?_ (ih hrest)
          have hcause : s.eliminated_cause = none := by
            cases hc : s.eliminated_cause with
            | none => rfl
            | some c => exact absurd (by simp [Battlesnake.is_eliminated, hc]) h1
          exact ⟨by simpa using h0, hcause, rfl⟩

theorem move_go_err {snake_id : String} {dir : Int × Int} {l : List Battlesnake}
    (hbad : ∃ s ∈ l, s.body.length = 0 ∨ s.eliminated_cause ≠ none) :
    ∀ l', move_go snake_id dir l ≠ .ok l' := by
  intro l' h
  rcases hbad with ⟨s, hs, hbad⟩
  rcases forall2_mem_left (move_go_ok h) hs with ⟨s', _, hlen, hcause, _⟩
  rcases hbad with h0 | h1
  · exact hlen h0
  · exact h1 hcause

theorem move_go_total {snake_id : String} {dir : Int × Int} {l : List Battlesnake}
    (hgood : ∀ s ∈ l, s.body.length ≠ 0 ∧ s.eliminated_cause = none) :
    ∃ l', move_go snake_id dir l = .ok l' := by
  induction l with
  | nil => exact ⟨[], rfl⟩
  | cons s rest ih =>
    rcases hgood s (List.mem_cons_self s rest) with ⟨h0, h1⟩
    rcases ih (fun x hx => hgood x (List.mem_cons_of_mem s hx)) with ⟨r, hr⟩
    refine ⟨(if snake_id == s.id then move_one dir s else s) :: r, ?_⟩
    simp [move_go, hr, h0, Battlesnake.is_eliminated, h1, Bind.bind, Except.bind]

/-! Phase lemmas: `eliminate_snakes`. -/

theorem elimR_self (s : Battlesnake) (hh : s.health ≠ 0) : ElimR s s :=
  ⟨rfl, rfl, rfl, fun _ => rfl, fun _ => ⟨rfl, hh⟩⟩

theorem elimR_skip (s : Battlesnake) (hne : s.eliminated_cause ≠ none) : ElimR s s :=
  ⟨rfl, rfl, rfl, fun _ => rfl, fun hn => absurd hn hne⟩

theorem elimR_eliminate (s : Battlesnake) (hcause : s.eliminated_cause = none) :
    ElimR s s.eliminate :=
  ⟨rfl, rfl, rfl, fun hc => absurd hcause hc, fun hn => Option.noConfusion hn⟩

theorem elimR_self_eliminate (s : Battlesnake) (hcause : s.eliminated_cause = none) :
    ElimR s s.self_eliminate :=
  ⟨rfl, rfl, rfl, fun hc => absurd hcause hc, fun hn => Option.noConfusion hn⟩

theorem cause_none_of_not_eliminated {s : Battlesnake}
    (h1 : ¬s.is_eliminated = true) : s.eliminated_cause = none := by
  cases hc : s.eliminated_cause with
  | none => rfl
  | some c => exact absurd (by simp [Battlesnake.is_eliminated, hc]) h1

theorem eliminate_one_ok {h w : Int} {s s' : Battlesnake}
    (he : eliminate_one h w s = .ok s') : ElimR s s' := by
  unfold eliminate_one at he
  by_cases h1 : s.is_eliminated
  · rw [if_pos h1] at he
    cases he
    exact elimR_skip s (by
      simpa [Battlesnake.is_eliminated, Option.isSome_iff_ne_none] using h1)
  · rw [if_neg h1] at he
    have hcause := cause_none_of_not_eliminated h1
    by_cases h2 : s.body.length ≤ 0
    · rw [if_pos h2] at he
      cases he
    · rw [if_neg h2] at he
      by_cases h3 : s.out_of_health
      · rw [if_pos h3] at he
        cases he
        exact elimR_eliminate s hcause
      · rw [if_neg h3] at he
        by_cases h4 : s.snake_is_out_of_bounds h w
        · rw [if_pos h4] at he
          cases he
          exact elimR_eliminate s hcause
        · rw [if_neg h4] at he
          by_cases h5 : s.self_collision
          · rw [if_pos h5] at he
            cases he
            exact elimR_self_eliminate s hcause
          · rw [if_neg h5] at he
            cases he
            exact elimR_self s (by simpa [Battlesnake.out_of_health] using h3)

theorem eliminate_one_total {h w : Int} {s : Battlesnake}
    (hgood : s.eliminated_cause ≠ none ∨ s.body ≠ []) :
    ∃ s', eliminate_one h w s = .ok s' := by
  unfold eliminate_one
  by_cases h1 : s.is_eliminated
  · exact ⟨s, by rw [if_pos h1]⟩
  · have hcause : s.eliminated_cause = none := by
      cases hc : s.eliminated_cause with
      | none => rfl
      | some c => exact absurd (by simp [Battlesnake.is_eliminated, hc]) h1
    have hb : s.body ≠ [] := by
      rcases hgood with hc | hb
      · exact absurd hcause hc
      · exact hb
    have hlen : ¬s.body.length ≤ 0 := by
      simpa [Nat.le_zero, List.length_eq_zero] using hb
    rw [if_neg h1, if_neg hlen]
    by_cases h3 : s.out_of_health
    · exact ⟨s.eliminate, by rw [if_pos h3]⟩
    · rw [if_neg h3]
      by_cases h4 : s.snake_is_out_of_bounds h w
      · exact ⟨s.eliminate, by rw [if_pos h4]⟩
      · rw [if_neg h4]
        by_cases h5 : s.self_collision
        · exact ⟨s.self_eliminate, by rw [if_pos h5]⟩
        · exact ⟨s, by rw [if_neg h5]⟩

theorem eliminate_go_ok {h w : Int} {l l' : List Battlesnake}
    (he : eliminate_go h w l = .ok l') : List.Forall₂ ElimR l l' := by
  induction l generalizing l' with
  | nil =>
    simp only [eliminate_go] at he
    cases he
    exact List.Forall₂.nil
  | cons s rest ih =>
    simp only [eliminate_go] at he
    cases hone : eliminate_one h w s with
    | error e => rw [hone] at he; simp [Bind.bind, Except.bind] at he
    | ok s' =>
      rw [hone] at he
      cases hrest : eliminate_go h w rest with
      | error e => rw [hrest] at he; simp [Bind.bind, Except.bind] at he
      | ok r =>
        rw [hrest] at he
        simp only [Bind.bind, Except.bind, Except.ok.injEq] at he
        cases he
        exact List.Forall₂.cons (eliminate_one_ok hone) (ih hrest)

theorem eliminate_go_total {h w : Int} {l : List Battlesnake}
    (hgood : ∀ s ∈ l, s.eliminated_cause ≠ none ∨ s.body ≠ []) :
    ∃ l', eliminate_go h w l = .ok l' := by
  induction l with
  | nil => exact ⟨[], rfl⟩
  | cons s rest ih =>
    rcases eliminate_one_total (h := h) (w := w)
      (hgood s (List.mem_cons_self s rest)) with ⟨s', hs'⟩
    rcases ih (fun x hx => hgood x (List.mem_cons_of_mem s hx)) with ⟨r, hr⟩
    refine ⟨s' :: r, ?_⟩
    simp only [eliminate_go, hs', hr, Bind.bind, Except.bind]

/-! Phase lemmas: `feed_snakes`. -/

theorem feed_one_snake_ok {food : Coord} {s s' : Battlesnake} {ate : Bool}
    (hf : feed_one_snake food s = .ok (s', ate)) : FeedR s s' := by
  unfold feed_one_snake at hf
  by_cases h1 : s.eliminated_cause.isNone && s.body.isEmpty
  · rw [if_pos h1] at hf
    cases hf
    exact ⟨rfl, rfl, Or.inr rfl, le_refl _⟩
  · rw [if_neg h1] at hf
    cases hb : s.body.head? with
    | none => rw [hb] at hf; cases hf
    | some b0 =>
      rw [hb] at hf
      by_cases h2 : b0.intersect food
      · simp only [h2, if_true] at hf
        cases hf
        refine ⟨rfl, rfl, Or.inl rfl, ?_⟩
        simp [Battlesnake.feed_snake]
      · simp only [h2, if_false] at hf
        cases hf
        exact ⟨rfl, rfl, Or.inr rfl, le_refl _⟩

theorem feed_one_snake_total {food : Coord} {s : Battlesnake} (hb : s.body ≠ []) :
    ∃ r, feed_one_snake food s = .ok r := by
  unfold feed_one_snake
  by_cases h1 : s.eliminated_cause.isNone && s.body.isEmpty
  · exact ⟨(s, false), by rw [if_pos h1]⟩
  · rw [if_neg h1]
    cases hh : s.body.head? with
    | none => exact absurd (List.head?_eq_none_iff.mp hh) hb
    | some b0 =>
      by_cases h2 : b0.intersect food
      · exact ⟨(s.feed_snake, true), by simp [h2]⟩
      · exact ⟨(s, false), by simp [h2]⟩

theorem feedR_refl (s : Battlesnake) : FeedR s s :=
  ⟨rfl, rfl, Or.inr rfl, le_refl _⟩

theorem feedR_trans {s t u : Battlesnake} (h1 : FeedR s t) (h2 : FeedR t u) :
    FeedR s u := by
  obtain ⟨hid1, hc1, hh1, hl1⟩ := h1
  obtain ⟨hid2, hc2, hh2, hl2⟩ := h2
  refine ⟨hid2.trans hid1, hc2.trans hc1, ?_, le_trans hl1 hl2⟩
  rcases hh2 with h | h
  · exact Or.inl h
  · rw [h]
    exact hh1

theorem forall2_feedR_trans {l m n : List Battlesnake}
    (h1 : List.Forall₂ FeedR l m) (h2 : List.Forall₂ FeedR m n) :
    List.Forall₂ FeedR l n := by
  induction h1 generalizing n with
  | nil =>
    cases h2
    exact List.Forall₂.nil
  | cons hr _ ih =>
    rcases List.forall₂_cons_left_iff.mp h2 with ⟨u, n', hu, hn', rfl⟩
    exact List.Forall₂.cons (feedR_trans hr hu) (ih hn')

theorem feed_go_ok {food : Coord} {l l' : List Battlesnake} {ate : Bool}
    (hf : feed_go food l = .ok (l', ate)) : List.Forall₂ FeedR l l' := by
  induction l generalizing l' ate with
  | nil =>
    simp only [feed_go] at hf
    cases hf
    exact List.Forall₂.nil
  | cons s rest ih =>
    simp only [feed_go] at hf
    cases hone : feed_one_snake food s with
    | error e => rw [hone] at hf; simp [Bind.bind, Except.bind] at hf
    | ok p =>
      rw [hone] at hf
      cases hrest : feed_go food rest with
      | error e => rw [hrest] at hf; simp [Bind.bind, Except.bind] at hf
      | ok q =>
        rw [hrest] at hf
        simp only [Bind.bind, Except.bind, Except.ok.injEq] at hf
        cases hf
        exact List.Forall₂.cons (feed_one_snake_ok (by rw [hone])) (ih (by rw [hrest]))

theorem feed_go_total {food : Coord} {l : List Battlesnake}
    (hb : ∀ s ∈ l, s.body ≠ []) : ∃ r, feed_go food l = .ok r := by
  induction l with
  | nil => exact ⟨([], false), rfl⟩
  | cons s rest ih =>
    rcases @feed_one_snake_total food s (hb s (List.mem_cons_self s rest))
      with ⟨⟨s', ate⟩, hs'⟩
    rcases ih (fun x hx => hb x (List.mem_cons_of_mem s hx)) with ⟨⟨r, ate'⟩, hr⟩
    exact ⟨(s' :: r, ate || ate'),
      by simp only [feed_go, hs', hr, Bind.bind, Except.bind]⟩

theorem feedR_body_ne {l l' : List Battlesnake} (h : List.Forall₂ FeedR l l')
    (hb : ∀ s ∈ l, s.body ≠ []) : ∀ s' ∈ l', s'.body ≠ [] := by
  intro s' hm
  rcases forall2_mem_right h hm with ⟨s, hs, _, _, _, hlen⟩
  have hs0 := hb s hs
  intro hnil
  rw [hnil] at hlen
  simp at hlen
  exact hs0 hlen

theorem feed_foods_ok {fs : List Coord} {l l' : List Battlesnake} {kept : List Coord}
    (hf : feed_foods fs l = .ok (l', kept)) : List.Forall₂ FeedR l l' := by
  induction fs generalizing l l' kept with
  | nil =>
    simp only [feed_foods] at hf
    cases hf
    exact List.forall₂_same.mpr (fun s _ => feedR_refl s)
  | cons f rest ih =>
    simp only [feed_foods] at hf
    cases hone : feed_go f l with
    | error e => rw [hone] at hf; simp [Bind.bind, Except.bind] at hf
    | ok p =>
      obtain ⟨l1, ate1⟩ := p
      rw [hone] at hf
      dsimp only [Bind.bind, Except.bind] at hf
      cases hrest : feed_foods rest l1 with
      | error e => rw [hrest] at hf; simp at hf
      | ok q =>
        obtain ⟨l2, kept2⟩ := q
        rw [hrest] at hf
        dsimp only at hf
        cases hf
        exact forall2_feedR_trans (feed_go_ok hone) (ih hrest)

theorem feed_foods_total {fs : List Coord} {l : List Battlesnake}
    (hb : ∀ s ∈ l, s.body ≠ []) : ∃ r, feed_foods fs l = .ok r := by
  induction fs generalizing l with
  | nil => exact ⟨(l, []), rfl⟩
  | cons f rest ih =>
    rcases @feed_go_total f l hb with ⟨⟨l1, ate⟩, h1⟩
    rcases ih (feedR_body_ne (feed_go_ok h1) hb) with ⟨⟨l2, kept⟩, h2⟩
    exact ⟨(l2, if ate then kept else f :: kept),
      by simp only [feed_foods, h1, h2, Bind.bind, Except.bind]⟩

/-! Phase lemmas: `reduce_snake_health` and `eliminate_via_collisions`. -/

theorem reduce_forall2 (b : Board) :
    List.Forall₂ (fun s s' => s' = s.reduce_health) b.snakes
      b.reduce_snake_health.snakes :=
  forall2_map_self (fun _ _ => rfl)

theorem collisions_forall2 (b : Board) :
    List.Forall₂ CollR b.snakes b.eliminate_via_collisions.snakes := by
  refine forall2_map_self (fun s _ => ?_)
  by_cases h : collision_flag b.snakes s.id
  · rw [if_pos h]
    exact ⟨rfl, rfl, rfl, Or.inr rfl⟩
  · rw [if_neg h]
    exact ⟨rfl, rfl, rfl, Or.inl rfl⟩

/-! Board-level inversions of the phase wrappers and of `execute`. -/

theorem move_snake_ok {b : Board} {id : String} {dir : Int × Int} {b1 : Board}
    (h : b.move_snake id dir = .ok b1) :
    move_go id dir b.snakes = .ok b1.snakes ∧ b1.width = b.width ∧
      b1.height = b.height ∧ b1.food = b.food := by
  unfold Board.move_snake at h
  cases hm : move_go id dir b.snakes with
  | error e => rw [hm] at h; simp [Except.map] at h
  | ok l =>
    rw [hm] at h
    simp only [Except.map, Except.ok.injEq] at h
    cases h
    exact ⟨rfl, rfl, rfl, rfl⟩

theorem eliminate_snakes_ok {b b2 : Board} (h : b.eliminate_snakes = .ok b2) :
    eliminate_go b.height b.width b.snakes = .ok b2.snakes ∧ b2.width = b.width ∧
      b2.height = b.height ∧ b2.food = b.food := by
  unfold Board.eliminate_snakes at h
  cases hm : eliminate_go b.height b.width b.snakes with
  | error e => rw [hm] at h; simp [Except.map] at h
  | ok l =>
    rw [hm] at h
    simp only [Except.map, Except.ok.injEq] at h
    cases h
    exact ⟨rfl, rfl, rfl, rfl⟩

theorem feed_snakes_ok {b b4 : Board} (h : b.feed_snakes = .ok b4) :
    ∃ kept, feed_foods b.food b.snakes = .ok (b4.snakes, kept) ∧
      b4.width = b.width ∧ b4.height = b.height ∧ b4.food = kept := by
  unfold Board.feed_snakes at h
  cases hm : feed_foods b.food b.snakes with
  | error e => rw [hm] at h; simp [Except.map] at h
  | ok p =>
    obtain ⟨l, kept⟩ := p
    rw [hm] at h
    simp only [Except.map, Except.ok.injEq] at h
    cases h
    exact ⟨kept, rfl, rfl, rfl, rfl⟩

theorem execute_playing_last_ok {b : Board} {id : String} {dir : Int × Int}
    {b' : Board} {es : EndState} (hp : b.get_endstate = .Playing)
    (h : b.execute id dir true = .ok (b', es)) :
    ∃ b1 b2 b4 b5, b.move_snake id dir = .ok b1 ∧ b1.eliminate_snakes = .ok b2 ∧
      b2.reduce_snake_health.feed_snakes = .ok b4 ∧ b4.eliminate_snakes = .ok b5 ∧
      b' = b5.eliminate_via_collisions ∧
      es = b5.eliminate_via_collisions.get_endstate := by
  unfold Board.execute at h
  rw [hp] at h
  cases h1 : b.move_snake id dir with
  | error e => rw [h1] at h; simp [Bind.bind, Except.bind] at h
  | ok b1 =>
    rw [h1] at h
    dsimp only [Bind.bind, Except.bind] at h
    cases h2 : b1.eliminate_snakes with
    | error e => rw [h2] at h; simp at h
    | ok b2 =>
      rw [h2] at h
      dsimp only [Bool.not_true, Bool.false_eq_true, if_false] at h
      cases h4 : b2.reduce_snake_health.feed_snakes with
      | error e => rw [h4] at h; simp at h
      | ok b4 =>
        rw [h4] at h
        dsimp only at h
        cases h5 : b4.eliminate_snakes with
        | error e => rw [h5] at h; simp at h
        | ok b5 =>
          rw [h5] at h
          dsimp only at h
          cases h
          exact ⟨b1, b2, b4, b5, rfl, h2, h4, h5, rfl, rfl⟩

theorem execute_playing_notlast_ok {b : Board} {id : String} {dir : Int × Int}
    {b' : Board} {es : EndState} (hp : b.get_endstate = .Playing)
    (h : b.execute id dir false = .ok (b', es)) :
    ∃ b1, b.move_snake id dir = .ok b1 ∧ b1.eliminate_snakes = .ok b' ∧
      es = .Playing := by
  unfold Board.execute at h
  rw [hp] at h
  cases h1 : b.move_snake id dir with
  | error e => rw [h1] at h; simp [Bind.bind, Except.bind] at h
  | ok b1 =>
    rw [h1] at h
    dsimp only [Bind.bind, Except.bind] at h
    cases h2 : b1.eliminate_snakes with
    | error e => rw [h2] at h; simp at h
    | ok b2 =>
      rw [h2] at h
      dsimp only [Bool.not_false, if_true] at h
      cases h
      exact ⟨b1, rfl, h2, rfl⟩


/-! Per-phase snake-id preservation, and C10. -/

theorem move_ids {b : Board} {id : String} {dir : Int × Int} {b1 : Board}
    (h : b.move_snake id dir = .ok b1) :
    b1.snakes.map Battlesnake.id = b.snakes.map Battlesnake.id := by
  refine forall2_ids (move_go_ok (move_snake_ok h).1) (fun s s' hr => ?_)
  rcases hr with ⟨_, _, rfl⟩
  by_cases hid : id == s.id
  · rw [if_pos hid]
    exact (move_one_fields dir s).1
  · rw [if_neg hid]

theorem eliminate_ids {b b2 : Board} (h : b.eliminate_snakes = .ok b2) :
    b2.snakes.map Battlesnake.id = b.snakes.map Battlesnake.id :=
  forall2_ids (eliminate_go_ok (eliminate_snakes_ok h).1) (fun _ _ hr => hr.1)

theorem reduce_health_id (s : Battlesnake) : s.reduce_health.id = s.id := by
  cases s
  rfl

theorem reduce_health_body (s : Battlesnake) :
    s.reduce_health.body = s.body := by
  cases s
  rfl

theorem reduce_health_cause (s : Battlesnake) :
    s.reduce_health.eliminated_cause = s.eliminated_cause := by
  cases s
  rfl

theorem reduce_health_health (s : Battlesnake) :
    s.reduce_health.health = (s.health + (2 ^ 32 - 1)) % 2 ^ 32 := by
  cases s
  rfl

theorem reduce_ids (b : Board) :
    b.reduce_snake_health.snakes.map Battlesnake.id = b.snakes.map Battlesnake.id :=
  forall2_ids (reduce_forall2 b) (fun s s' hr => by rw [hr, reduce_health_id])

theorem feed_ids {b b4 : Board} (h : b.feed_snakes = .ok b4) :
    b4.snakes.map Battlesnake.id = b.snakes.map Battlesnake.id := by
  rcases feed_snakes_ok h with ⟨kept, hk, _⟩
  exact forall2_ids (feed_foods_ok hk) (fun _ _ hr => hr.1)

theorem collisions_ids (b : Board) :
    b.eliminate_via_collisions.snakes.map Battlesnake.id =
      b.snakes.map Battlesnake.id :=
  forall2_ids (collisions_forall2 b) (fun _ _ hr => hr.1)

/-- C10: a successful `execute` (with either round flag) never adds to, removes
from, or reorders the board's snake collection: the resulting board's snakes
carry the same identifiers at the same indices, so index-based turn-order lookup
established at tree construction stays valid across simulation steps. -/
theorem execute_preserves_snake_ids {b : Board} {id : String} {dir : Int × Int}
    {last : Bool} {b' : Board} {es : EndState}
    (h : b.execute id dir last = .ok (b', es)) :
    b'.snakes.map Battlesnake.id = b.snakes.map Battlesnake.id := by
  cases hes : b.get_endstate with
  | Winner w =>
    unfold Board.execute at h
    rw [hes] at h
    cases h
    rfl
  | TIE =>
    unfold Board.execute at h
    rw [hes] at h
    cases h
    rfl
  | Playing =>
    cases last with
    | false =>
      rcases execute_playing_notlast_ok hes h with ⟨b1, h1, h2, _⟩
      exact (eliminate_ids h2).trans (move_ids h1)
    | true =>
      rcases execute_playing_last_ok hes h with ⟨b1, b2, b4, b5, h1, h2, h4, h5, rfl, _⟩
      exact ((((collisions_ids b5).trans (eliminate_ids h5)).trans
        ((feed_ids h4).trans (reduce_ids b2))).trans (eliminate_ids h2)).trans
        (move_ids h1)

/-- Witness for C10: a concrete successful `execute` call preserving the snake
identifiers. -/
theorem execute_preserves_snake_ids_witness :
    ghost_board.execute "a" (1, 0) false = .ok (ghost_board_after, EndState.Playing) ∧
    ghost_board_after.snakes.map Battlesnake.id =
      ghost_board.snakes.map Battlesnake.id :=
  ⟨by decide, execute_preserves_snake_ids
    (by decide : ghost_board.execute "a" (1, 0) false =
      .ok (ghost_board_after, EndState.Playing))⟩

/-! Totality of `execute` on well-formed boards. -/

theorem moveR_good {snake_id : String} {dir : Int × Int} {l l' : List Battlesnake}
    (hf : List.Forall₂ (MoveR snake_id dir) l l') :
    ∀ s' ∈ l', s'.eliminated_cause = none ∧ s'.body ≠ [] := by
  intro s' hm
  rcases forall2_mem_right hf hm with ⟨s, hs, hlen, hcause, rfl⟩
  have hb : s.body ≠ [] := by
    intro hnil
    exact hlen (by simp [hnil])
  by_cases hid : snake_id == s.id
  · rw [if_pos hid]
    constructor
    · rw [(move_one_fields dir s).2.2]
      exact hcause
    · intro hnil
      have hz := move_one_length dir s hb
      rw [hnil] at hz
      simp at hz
      exact hb (List.length_eq_zero.mp hz.symm)
  · rw [if_neg hid]
    exact ⟨hcause, hb⟩

theorem elimR_body_ne {l l' : List Battlesnake} (h : List.Forall₂ ElimR l l')
    (hb : ∀ s ∈ l, s.body ≠ []) : ∀ s' ∈ l', s'.body ≠ [] := by
  intro s' hm
  rcases forall2_mem_right h hm with ⟨s, hs, _, _, hbody, _⟩
  rw [hbody]
  exact hb s hs

theorem reduce_body_ne {l : List Battlesnake} (hb : ∀ s ∈ l, s.body ≠ []) :
    ∀ s' ∈ l.map Battlesnake.reduce_health, s'.body ≠ [] := by
  intro s' hm
  rcases List.mem_map.mp hm with ⟨s, hs, rfl⟩
  rw [reduce_health_body]
  exact hb s hs

theorem execute_total {b : Board} {id : String} {dir : Int × Int} {last : Bool}
    (hgood : ∀ s ∈ b.snakes, s.body.length ≠ 0 ∧ s.eliminated_cause = none) :
    ∃ r, b.execute id dir last = .ok r := by
  unfold Board.execute
  cases hes : b.get_endstate with
  | Winner w => exact ⟨(b, .Winner w), rfl⟩
  | TIE => exact ⟨(b, .TIE), rfl⟩
  | Playing =>
    rcases move_go_total (l := b.snakes) hgood with ⟨l1, h1⟩
    have hmv : b.move_snake id dir = .ok ⟨b.width, b.height, b.food, l1⟩ := by
      unfold Board.move_snake
      rw [h1]
      rfl
    rw [hmv]
    dsimp only [Bind.bind, Except.bind]
    have hl1 : ∀ s ∈ l1, s.eliminated_cause = none ∧ s.body ≠ [] :=
      moveR_good (move_go_ok h1)
    rcases eliminate_go_total (l := l1) (h := b.height) (w := b.width)
      (fun s hs => Or.inr (hl1 s hs).2) with ⟨l2, h2⟩
    have helim : (Board.mk b.width b.height b.food l1).eliminate_snakes =
        .ok ⟨b.width, b.height, b.food, l2⟩ := by
      unfold Board.eliminate_snakes
      dsimp only
      rw [h2]
      rfl
    rw [helim]
    dsimp only [Bind.bind, Except.bind]
    cases last with
    | false => exact ⟨(⟨b.width, b.height, b.food, l2⟩, .Playing), rfl⟩
    | true =>
      simp only [Bool.not_true, Bool.false_eq_true, if_false]
      have hl2 : ∀ s ∈ l2, s.body ≠ [] :=
        elimR_body_ne (eliminate_go_ok h2) (fun s hs => (hl1 s hs).2)
      have hl3 : ∀ s ∈ l2.map Battlesnake.reduce_health, s.body ≠ [] :=
        reduce_body_ne hl2
      rcases @feed_foods_total b.food (l2.map Battlesnake.reduce_health) hl3
        with ⟨⟨l4, kept⟩, h4⟩
      have hfeed : (Board.mk b.width b.height b.food l2).reduce_snake_health.feed_snakes
          = .ok ⟨b.width, b.height, kept, l4⟩ := by
        unfold Board.feed_snakes Board.reduce_snake_health
        dsimp only
        rw [h4]
        rfl
      rw [hfeed]
      dsimp only [Bind.bind, Except.bind]
      have hl4 : ∀ s ∈ l4, s.body ≠ [] := feedR_body_ne (feed_foods_ok h4) hl3
      rcases eliminate_go_total (l := l4) (h := b.height) (w := b.width)
        (fun s hs => Or.inr (hl4 s hs)) with ⟨l5, h5⟩
      have helim2 : (Board.mk b.width b.height kept l4).eliminate_snakes =
          .ok ⟨b.width, b.height, kept, l5⟩ := by
        unfold Board.eliminate_snakes
        dsimp only
        rw [h5]
        rfl
      rw [helim2]
      dsimp only [Bind.bind, Except.bind]
      exact ⟨_, rfl⟩

/-! C8: the frame of a non-final `execute`. -/

theorem forall2_map_eq {α β : Type} {R : α → α → Prop} {l l' : List α} (f : α → β)
    (h : List.Forall₂ R l l') (hf : ∀ s s', R s s' → f s' = f s) :
    l'.map f = l.map f := by
  induction h with
  | nil => rfl
  | cons hr _ ih => simp [hf _ _ hr, ih]

theorem forall2_comp {α : Type} {R S T : α → α → Prop} {l m n : List α}
    (h1 : List.Forall₂ R l m) (h2 : List.Forall₂ S m n)
    (hc : ∀ a b c, R a b → S b c → T a c) : List.Forall₂ T l n := by
  induction h1 generalizing n with
  | nil =>
    cases h2
    exact List.Forall₂.nil
  | cons hr _ ih =>
    rcases List.forall₂_cons_left_iff.mp h2 with ⟨u, n', hu, hn', rfl⟩
    exact List.Forall₂.cons (hc _ _ _ hr hu) (ih hn')

/-- C8 (amended): on a Playing board on which every snake is alive with a
non-empty body, `execute` with `is_last_agent_in_round = false` completes and
returns `Playing`, leaving the food set and every snake's health unchanged and
moving no body except (possibly) the named snake's; inter-agent collision
resolution and feeding are deferred (only single-snake elimination causes may
change). -/
theorem execute_notlast_frame {b : Board} {id : String} {dir : Int × Int}
    (hp : b.get_endstate = .Playing)
    (hgood : ∀ s ∈ b.snakes, s.body.length ≠ 0 ∧ s.eliminated_cause = none) :
    ∃ b', b.execute id dir false = .ok (b', .Playing) ∧
      b'.food = b.food ∧
      b'.snakes.map Battlesnake.health = b.snakes.map Battlesnake.health ∧
      List.Forall₂ (fun s s' => (id == s.id) = false → s'.body = s.body)
        b.snakes b'.snakes := by
  rcases @execute_total b id dir false hgood with ⟨⟨b', es⟩, hex⟩
  rcases execute_playing_notlast_ok hp hex with ⟨b1, h1, h2, hes⟩
  subst hes
  refine ⟨b', hex, ?_, ?_, ?_⟩
  · exact ((eliminate_snakes_ok h2).2.2.2).trans (move_snake_ok h1).2.2.2
  · have e1 : b1.snakes.map Battlesnake.health = b.snakes.map Battlesnake.health := by
      refine forall2_map_eq Battlesnake.health (move_go_ok (move_snake_ok h1).1)
        (fun s s' hr => ?_)
      rcases hr with ⟨_, _, rfl⟩
      by_cases hid : id == s.id
      · rw [if_pos hid]
        exact (move_one_fields dir s).2.1
      · rw [if_neg hid]
    have e2 : b'.snakes.map Battlesnake.health = b1.snakes.map Battlesnake.health :=
      forall2_map_eq Battlesnake.health
        (eliminate_go_ok (eliminate_snakes_ok h2).1) (fun _ _ hr => hr.2.1)
    exact e2.trans e1
  · have f1 : List.Forall₂ (fun s s' => (id == s.id) = false → s'.body = s.body)
        b.snakes b1.snakes := by
      refine List.Forall₂.imp ?_ (move_go_ok (move_snake_ok h1).1)
      rintro s s' ⟨_, _, rfl⟩ hid
      rw [hid]
      rfl
    have f2 : List.Forall₂ (fun s s' => s'.body = s.body) b1.snakes b'.snakes :=
      List.Forall₂.imp (fun s s' hr => hr.2.2.1)
        (eliminate_go_ok (eliminate_snakes_ok h2).1)
    refine forall2_comp f1 f2 (fun x y z hxy hyz hid => ?_)
    rw [hyz]
    exact hxy hid

/-- Counterexample to C8 as stated: `stale_board` IS a Playing board (snakes
"a" and "b" are alive) yet `execute` with `is_last_agent_in_round = false`
fails fatally instead of returning `Playing`, because the board also contains
the eliminated snake "c" and `move_snake` panics on ANY eliminated snake. -/
theorem execute_notlast_stale_cex :
    stale_board.get_endstate = .Playing ∧
    stale_board.execute "a" (1, 0) false =
      .error "Trying to move an eliminated snake" := by
  constructor
  · decide
  · decide

/-- Witness for the amended C8 at a concrete all-alive Playing board. -/
theorem execute_notlast_frame_witness :
    ghost_board.get_endstate = .Playing ∧
    (∃ b', ghost_board.execute "a" (1, 0) false = .ok (b', .Playing) ∧
      b'.food = ghost_board.food ∧
      b'.snakes.map Battlesnake.health = ghost_board.snakes.map Battlesnake.health ∧
      List.Forall₂ (fun s s' => (("a" : String) == s.id) = false → s'.body = s.body)
        ghost_board.snakes b'.snakes) :=
  ⟨by decide, execute_notlast_frame (by decide) (by decide)⟩

/-! C3: when `execute` fails fatally. -/

/-- C3 (amended): on a Playing board, `execute` fails fatally exactly when SOME
snake in the board has an empty body or is already eliminated — regardless of
which snake is named; in particular it completes whenever every snake in the
board (not merely the named one) is alive with a non-empty body, and a
nonexistent named id is NOT a fatal error: the move loop silently moves no one. -/
theorem execute_fatal_iff {b : Board} {id : String} {dir : Int × Int} {last : Bool}
    (hp : b.get_endstate = .Playing) :
    (∀ r, b.execute id dir last ≠ .ok r) ↔
      ∃ s ∈ b.snakes, s.body = [] ∨ s.eliminated_cause ≠ none := by
  constructor
  · intro h
    by_contra hno
    push_neg at hno
    rcases @execute_total b id dir last
      (fun s hs => ⟨by simpa [List.length_eq_zero] using (hno s hs).1,
        (hno s hs).2⟩) with ⟨r, hr⟩
    exact h r hr
  · rintro ⟨s, hs, hbad⟩ r hok
    unfold Board.execute at hok
    rw [hp] at hok
    cases hm : b.move_snake id dir with
    | error e =>
      rw [hm] at hok
      simp [Bind.bind, Except.bind] at hok
    | ok b1 =>
      refine move_go_err ⟨s, hs, ?_⟩ b1.snakes (move_snake_ok hm).1
      rcases hbad with hb | hc
      · exact Or.inl (by simp [hb])
      · exact Or.inr hc

/-- Counterexample to C3 as stated: on `ghost_board` — a Playing board whose
snakes are all alive with non-empty bodies and none of which is named "ghost" —
`execute` with the nonexistent agent id "ghost" completes WITHOUT a fatal
error, although the claim requires a fatal failure for a nonexistent agent. -/
theorem execute_ghost_cex :
    ghost_board.get_endstate = .Playing ∧
    (∀ s ∈ ghost_board.snakes, s.id ≠ "ghost") ∧
    (ghost_board.execute "ghost" (1, 0) true).isOk = true :=
  ⟨by decide, by decide, by decide⟩

/-- Witness for the amended C3 at a concrete Playing board that contains an
eliminated snake. -/
theorem execute_fatal_iff_witness :
    stale_board.get_endstate = .Playing ∧
    ((∀ r, stale_board.execute "a" (1, 0) false ≠ .ok r) ↔
      ∃ s ∈ stale_board.snakes, s.body = [] ∨ s.eliminated_cause ≠ none) :=
  ⟨by decide, execute_fatal_iff (by decide)⟩

/-! C4: health bookkeeping of a final `execute`. -/

theorem forall2_imp_mem {α : Type} {R Q : α → α → Prop} {l l' : List α}
    (h : List.Forall₂ R l l') (hq : ∀ s s', s ∈ l → R s s' → Q s s') :
    List.Forall₂ Q l l' := by
  induction h with
  | nil => exact List.Forall₂.nil
  | cons hr ht ih =>
    exact List.Forall₂.cons (hq _ _ (List.mem_cons_self _ _) hr)
      (ih (fun s s' hs hrs => hq s s' (List.mem_cons_of_mem _ hs) hrs))

theorem wrap_dec_eq {h : Nat} (h1 : 1 ≤ h) (h2 : h ≤ 100) :
    (h + (2 ^ 32 - 1)) % 2 ^ 32 = h - 1 := by
  have hp : (2 : Nat) ^ 32 = 4294967296 := by norm_num
  rw [hp]
  omega

/-- C4 (amended): when `execute` runs with `is_last_agent_in_round = true` on a
Playing board, EVERY agent's health — including the health of agents eliminated
during the very same call — is decremented by exactly 1 (with u32 wrap-around)
before feeding, so each agent ends with health 100 (fed) or its pre-call health
minus one; when every pre-call health is at most 100, every agent still living
afterwards ends with health within [0, 100]. -/
theorem execute_last_health {b : Board} {id : String} {dir : Int × Int}
    {b' : Board} {es : EndState} (hp : b.get_endstate = .Playing)
    (hok : b.execute id dir true = .ok (b', es))
    (hmax : ∀ s ∈ b.snakes, s.health ≤ 100) :
    List.Forall₂ (fun s s' =>
      (s'.health = 100 ∨ s'.health = (s.health + (2 ^ 32 - 1)) % 2 ^ 32) ∧
      (s'.eliminated_cause = none → s'.health ≤ 100)) b.snakes b'.snakes := by
  rcases execute_playing_last_ok hp hok with ⟨b1, b2, b4, b5, h1, h2, h4, h5, rfl, _⟩
  have f1 : List.Forall₂
      (fun s t => t.health = s.health ∧ t.eliminated_cause = s.eliminated_cause)
      b.snakes b1.snakes := by
    refine List.Forall₂.imp ?_ (move_go_ok (move_snake_ok h1).1)
    rintro s t ⟨_, _, rfl⟩
    by_cases hid : id == s.id
    · rw [if_pos hid]
      exact ⟨(move_one_fields dir s).2.1, (move_one_fields dir s).2.2⟩
    · rw [if_neg hid]
      exact ⟨rfl, rfl⟩
  have f2 : List.Forall₂ ElimR b1.snakes b2.snakes :=
    eliminate_go_ok (eliminate_snakes_ok h2).1
  have f12 : List.Forall₂
      (fun s u => u.health = s.health ∧ (u.eliminated_cause = none → u.health ≠ 0))
      b.snakes b2.snakes := by
    refine forall2_comp f1 f2 (fun s t u hst htu => ?_)
    refine ⟨htu.2.1.trans hst.1, fun hu => ?_⟩
    rcases htu.2.2.2.2 hu with ⟨rfl, hz⟩
    rw [htu.2.1]
    exact hz
  have f3 : List.Forall₂ (fun u v => v = u.reduce_health) b2.snakes
      b2.reduce_snake_health.snakes := reduce_forall2 b2
  have f13 : List.Forall₂
      (fun s v => v.health = (s.health + (2 ^ 32 - 1)) % 2 ^ 32 ∧
        (v.eliminated_cause = none → s.health ≠ 0))
      b.snakes b2.reduce_snake_health.snakes := by
    refine forall2_comp f12 f3 (fun s u v hsu huv => ?_)
    subst huv
    refine ⟨?_, fun hv => ?_⟩
    · rw [reduce_health_health, hsu.1]
    · rw [reduce_health_cause] at hv
      rw [← hsu.1]
      exact hsu.2 hv
  rcases feed_snakes_ok h4 with ⟨kept, hk, _⟩
  have f4 : List.Forall₂ FeedR b2.reduce_snake_health.snakes b4.snakes :=
    feed_foods_ok hk
  have f14 : List.Forall₂
      (fun s w => (w.health = 100 ∨ w.health = (s.health + (2 ^ 32 - 1)) % 2 ^ 32) ∧
        (w.eliminated_cause = none → s.health ≠ 0))
      b.snakes b4.snakes := by
    refine forall2_comp f13 f4 (fun s v w hsv hvw => ?_)
    refine ⟨?_, fun hw => hsv.2 (by rw [← hvw.2.1]; exact hw)⟩
    rcases hvw.2.2.1 with h100 | hkeep
    · exact Or.inl h100
    · exact Or.inr (hkeep.trans hsv.1)
  have f5 : List.Forall₂ ElimR b4.snakes b5.snakes :=
    eliminate_go_ok (eliminate_snakes_ok h5).1
  have f15 : List.Forall₂
      (fun s w => (w.health = 100 ∨ w.health = (s.health + (2 ^ 32 - 1)) % 2 ^ 32) ∧
        (w.eliminated_cause = none → s.health ≠ 0))
      b.snakes b5.snakes := by
    refine forall2_comp f14 f5 (fun s w u hsw hwu => ?_)
    refine ⟨by rw [hwu.2.1]; exact hsw.1, fun hu => ?_⟩
    rcases hwu.2.2.2.2 hu with ⟨rfl, _⟩
    exact hsw.2 hu
  have f6 : List.Forall₂ CollR b5.snakes
      b5.eliminate_via_collisions.snakes := collisions_forall2 b5
  have f16 : List.Forall₂
      (fun s z => (z.health = 100 ∨ z.health = (s.health + (2 ^ 32 - 1)) % 2 ^ 32) ∧
        (z.eliminated_cause = none → s.health ≠ 0))
      b.snakes b5.eliminate_via_collisions.snakes := by
    refine forall2_comp f15 f6 (fun s w z hsw hwz => ?_)
    refine ⟨by rw [hwz.2.1]; exact hsw.1, fun hz => ?_⟩
    rcases hwz.2.2.2 with hsame | hded
    · exact hsw.2 (hsame ▸ hz)
    · rw [hded] at hz
      cases hz
  refine forall2_imp_mem f16 (fun s z hs hz => ⟨hz.1, fun halive => ?_⟩)
  rcases hz.1 with h100 | hdec
  · rw [h100]
  · have hsm := hmax s hs
    rw [hdec, wrap_dec_eq (Nat.one_le_iff_ne_zero.mpr (hz.2 halive)) hsm]
    omega

/-- Counterexample to C4 as stated: on `oob_board`, agent "b" moves out of
bounds and is eliminated during the call, yet `reduce_snake_health` decrements
its health from 50 to 49 — the health of an eliminated agent is NOT left
unchanged. -/
theorem reduce_eliminated_cex :
    oob_board.get_endstate = .Playing ∧
    (oob_board.snakes.get? 1).map Battlesnake.health = some 50 ∧
    oob_board.execute "b" (0, 1) true =
      .ok (⟨3, 3, [], [⟨"a", [⟨0, 0⟩, ⟨0, 1⟩], ⟨0, 0⟩, 79, none⟩,
                       ⟨"b", [⟨3, 2⟩, ⟨2, 2⟩], ⟨3, 2⟩, 49, some "DED"⟩]⟩,
            .Winner "a") :=
  ⟨by decide, by decide, by decide⟩

/-- Witness for the amended C4 at `oob_board`. -/
theorem execute_last_health_witness :
    oob_board.get_endstate = .Playing ∧
    oob_board.execute "b" (0, 1) true =
      .ok (⟨3, 3, [], [⟨"a", [⟨0, 0⟩, ⟨0, 1⟩], ⟨0, 0⟩, 79, none⟩,
                       ⟨"b", [⟨3, 2⟩, ⟨2, 2⟩], ⟨3, 2⟩, 49, some "DED"⟩]⟩,
            .Winner "a") ∧
    (∀ s ∈ oob_board.snakes, s.health ≤ 100) ∧
    List.Forall₂ (fun s s' =>
      (s'.health = 100 ∨ s'.health = (s.health + (2 ^ 32 - 1)) % 2 ^ 32) ∧
      (s'.eliminated_cause = none → s'.health ≤ 100)) oob_board.snakes
      (⟨3, 3, [], [⟨"a", [⟨0, 0⟩, ⟨0, 1⟩], ⟨0, 0⟩, 79, none⟩,
                   ⟨"b", [⟨3, 2⟩, ⟨2, 2⟩], ⟨3, 2⟩, 49, some "DED"⟩]⟩ : Board).snakes :=
  ⟨by decide, by decide, by decide,
    execute_last_health (by decide)
      (by decide : oob_board.execute "b" (0, 1) true =
        .ok (⟨3, 3, [], [⟨"a", [⟨0, 0⟩, ⟨0, 1⟩], ⟨0, 0⟩, 79, none⟩,
                         ⟨"b", [⟨3, 2⟩, ⟨2, 2⟩], ⟨3, 2⟩, 49, some "DED"⟩]⟩,
              .Winner "a")) (by decide)⟩

/-! C2: the feeding step applies to eliminated snakes. -/

/-- C2 (code-bug demonstration): on `feed_dead_board`, snake "a" (health 50,
4 body segments) self-collides onto the food cell (2, 1) and is eliminated
during the call, yet the feeding step of the same `execute` call feeds it: its
health is reset to 100 and its body grows to 5 segments while its elimination
cause is present.  The guard of `feed_snakes` skips only LIVING empty-bodied
snakes, so an eliminated snake falls through to the food check. -/
theorem eliminated_snake_fed :
    (feed_dead_board.snakes.get? 0).map Battlesnake.health = some 50 ∧
    (feed_dead_board.snakes.get? 0).map (fun s => s.body.length) = some 4 ∧
    feed_dead_board.execute "a" (0, 1) true =
      .ok (feed_dead_board_after, .Winner "b") ∧
    (feed_dead_board_after.snakes.get? 0).map Battlesnake.eliminated_cause =
      some (some "eliminated itself") ∧
    (feed_dead_board_after.snakes.get? 0).map Battlesnake.health = some 100 ∧
    (feed_dead_board_after.snakes.get? 0).map (fun s => s.body.length) = some 5 :=
  ⟨by decide, by decide, by decide, by decide, by decide, by decide⟩

/-! C1: the head-to-head rule of `eliminate_via_collisions`. -/

theorem filter_id_nodup {l : List Battlesnake}
    (hnodup : (l.map Battlesnake.id).Nodup) {s : Battlesnake} (hs : s ∈ l) :
    l.filter (fun t => t.id == s.id) = [s] := by
  induction l with
  | nil => cases hs
  | cons a rest ih =>
    simp only [List.map_cons, List.nodup_cons] at hnodup
    rcases List.mem_cons.mp hs with rfl | hmem
    · have hrest : rest.filter (fun t => t.id == s.id) = [] := by
        refine List.filter_eq_nil_iff.mpr (fun t ht => ?_)
        simp only [beq_iff_eq]
        intro heq
        exact hnodup.1 (heq ▸ List.mem_map_of_mem Battlesnake.id ht)
      rw [List.filter_cons_of_pos (by simp), hrest]
    · have hne : a.id ≠ s.id := by
        intro heq
        exact hnodup.1 (heq ▸ List.mem_map_of_mem Battlesnake.id hmem)
      rw [List.filter_cons_of_neg (by simp [hne])]
      exact ih hnodup.2 hmem

theorem collides_with_of_h2h {s t : Battlesnake} {l : List Battlesnake}
    (ht : t ∈ l) (htl : t.eliminated_cause = none)
    (hdies : s.dies_head_to_head t = true) : s.collides_with l = true := by
  unfold Battlesnake.collides_with
  rw [List.any_eq_true]
  exact ⟨t, ht, by simp [Battlesnake.is_eliminated, htl, hdies]⟩

/-- C1 (amended): at end-of-round collision resolution, for two snakes with
coinciding heads on a board with unique snake ids, where the other snake is
living: if its body is strictly longer, the strictly shorter snake is
eliminated by the collision pass; if the bodies have EQUAL length, the
head-to-head predicate eliminates neither snake (`dies_head_to_head` is false
in both directions) — both survive an otherwise collision-free head-on meeting,
as the counterexample shows concretely. -/
theorem head_to_head_rule {b : Board} {s t : Battlesnake}
    (hnodup : (b.snakes.map Battlesnake.id).Nodup)
    (hs : s ∈ b.snakes) (ht : t ∈ b.snakes)
    (htl : t.eliminated_cause = none)
    (hheads : s.head.intersect t.head = true) :
    (t.body.length > s.body.length →
      ∀ u ∈ b.eliminate_via_collisions.snakes, u.id = s.id →
        u.eliminated_cause ≠ none) ∧
    (t.body.length = s.body.length →
      s.dies_head_to_head t = false ∧ t.dies_head_to_head s = false) := by
  constructor
  · intro hlen u hu hid
    unfold Board.eliminate_via_collisions at hu
    simp only [List.mem_map] at hu
    rcases hu with ⟨x, hx, rfl⟩
    have hxid : x.id = s.id := by
      by_cases hflag : collision_flag b.snakes x.id
      · rw [if_pos hflag] at hid
        exact hid
      · rw [if_neg hflag] at hid
        exact hid
    have hxs : x = s := by
      have h1 : x ∈ b.snakes.filter (fun t => t.id == s.id) :=
        List.mem_filter.mpr ⟨hx, by simp [hxid]⟩
      rw [filter_id_nodup hnodup hs] at h1
      simpa using h1
    subst hxs
    have hflag : collision_flag b.snakes x.id = true := by
      unfold collision_flag
      rw [hxid, filter_id_nodup hnodup hs]
      have hlast : ([x].getLast? : Option Battlesnake) = some x := rfl
      rw [hlast]
      exact collides_with_of_h2h ht htl
        (by simp [Battlesnake.dies_head_to_head, hheads, hlen])
    rw [if_pos hflag]
    simp [Battlesnake.eliminate]
  · intro hlen
    constructor
    · simp [Battlesnake.dies_head_to_head, hlen]
    · simp [Battlesnake.dies_head_to_head, hlen]

/-- Counterexample to C1 as stated: two living snakes of EQUAL length meet
head to head on `h2h_equal_board` with no other collision; after
`eliminate_via_collisions` BOTH are still alive — the board is unchanged — where
the claim requires both to be eliminated. -/
theorem h2h_equal_cex :
    h2h_equal_board.snakes.map (fun s => s.body.length) = [2, 2] ∧
    h2h_equal_board.snakes.map Battlesnake.eliminated_cause = [none, none] ∧
    ((h2h_equal_board.snakes.get? 0).map Battlesnake.head =
      (h2h_equal_board.snakes.get? 1).map Battlesnake.head) ∧
    h2h_equal_board.eliminate_via_collisions = h2h_equal_board :=
  ⟨by decide, by decide, by decide, by decide⟩

/-- Witness for the amended C1: on `h2h_longer_board` the strictly longer "b"
(3 segments) meets the shorter "a" (2 segments) head to head. -/
theorem head_to_head_rule_witness :
    ((h2h_longer_board.snakes.map Battlesnake.id).Nodup ∧
      h2h_short ∈ h2h_longer_board.snakes ∧ h2h_long ∈ h2h_longer_board.snakes ∧
      h2h_long.eliminated_cause = none ∧
      h2h_short.head.intersect h2h_long.head = true) ∧
    ((h2h_long.body.length > h2h_short.body.length →
      ∀ u ∈ h2h_longer_board.eliminate_via_collisions.snakes, u.id = h2h_short.id →
        u.eliminated_cause ≠ none) ∧
     (h2h_long.body.length = h2h_short.body.length →
      h2h_short.dies_head_to_head h2h_long = false ∧
      h2h_long.dies_head_to_head h2h_short = false)) :=
  ⟨⟨by decide, by decide, by decide, by decide, by decide⟩,
    head_to_head_rule (by decide) (by decide) (by decide) (by decide) (by decide)⟩

/-! C5 and C6: the scorer on terminal and degenerate boards. -/

theorem winner_alive_snake {b : Board} {w : String} (hw : b.get_endstate = .Winner w) :
    ∃ t, b.snakes.filter (fun s => s.eliminated_cause.isNone) = [t] ∧ t.id = w := by
  have hg := get_endstate_eq b
  rcases hl : (b.snakes.filter (fun s => s.eliminated_cause.isNone)).length with _ | _ | k
  · rw [hl] at hg
    norm_num at hg
    rw [hw] at hg
    cases hg
  · rcases List.length_eq_one.mp hl with ⟨s, hs⟩
    rw [hl] at hg
    norm_num [hs] at hg
    rw [hw] at hg
    cases hg
    exact ⟨s, hs, rfl⟩
  · rw [hl] at hg
    norm_num at hg
    rw [hw] at hg
    cases hg

theorem raw_scores_winner (w : String) (board : Board) (l : List Battlesnake) :
    raw_scores (.Winner w) board l =
      .ok (l.map (fun s => if w == s.id then FF.fin 200000 else FF.fin 0)) := by
  induction l with
  | nil => rfl
  | cons s rest ih =>
    simp only [raw_scores, calculate_raw_score_per_snake, ih, Bind.bind, Except.bind,
      List.map_cons]
    by_cases h : w == s.id
    · simp only [h, if_true]
    · simp only [h, Bool.false_eq_true, if_false]

theorem raw_scores_tie (board : Board) (l : List Battlesnake) :
    raw_scores .TIE board l = .ok (l.map (fun _ => FF.fin 0)) := by
  induction l with
  | nil => rfl
  | cons s rest ih =>
    simp only [raw_scores, calculate_raw_score_per_snake, ih, Bind.bind, Except.bind,
      List.map_cons]

theorem raw_scores_pointwise_zero {es : EndState} {board : Board}
    {l : List Battlesnake}
    (hz : ∀ s ∈ l, calculate_raw_score_per_snake s.id es board = .ok (FF.fin 0)) :
    raw_scores es board l = .ok (l.map (fun _ => FF.fin 0)) := by
  induction l with
  | nil => rfl
  | cons s rest ih =>
    simp only [raw_scores, hz s (List.mem_cons_self s rest),
      ih (fun x hx => hz x (List.mem_cons_of_mem s hx)), Bind.bind, Except.bind,
      List.map_cons]

theorem foldl_ffadd_fin {α : Type} (f : α → ℚ) (l : List α) (q : ℚ) :
    (l.map (fun a => FF.fin (f a))).foldl FF.add (.fin q) =
      .fin (q + (l.map f).sum) := by
  induction l generalizing q with
  | nil => simp
  | cons a rest ih =>
    simp only [List.map_cons, List.foldl_cons, FF.add, qadd_eq, ih, List.sum_cons]
    ring_nf

theorem sum_winner_indicator {w : String} {t : Battlesnake} {l : List Battlesnake}
    (hfilter : l.filter (fun x => x.id == w) = [t]) :
    (l.map (fun s => if w == s.id then (200000 : ℚ) else 0)).sum = 200000 := by
  induction l with
  | nil => simp at hfilter
  | cons a rest ih =>
    by_cases h : a.id = w
    · have hb : (a.id == w) = true := by simpa using h
      simp only [List.filter_cons, hb, if_true] at hfilter
      have hrest : rest.filter (fun x => x.id == w) = [] :=
        ((List.cons.injEq _ _ _ _).mp hfilter).2
      have hzero : (rest.map (fun s => if w == s.id then (200000 : ℚ) else 0)).sum = 0 := by
        apply List.sum_eq_zero
        intro x hx
        rcases List.mem_map.mp hx with ⟨y, hy, rfl⟩
        have hyne : ¬y.id = w := by
          have := List.filter_eq_nil_iff.mp hrest y hy
          simpa using this
        have hne : ¬((w == y.id) = true) := by
          simp only [beq_iff_eq]
          exact fun hc => hyne hc.symm
        rw [if_neg hne]
      have hpos : ((w == a.id) = true) := by
        simp only [beq_iff_eq]
        exact h.symm
      rw [List.map_cons, List.sum_cons, hzero, if_pos hpos]
      ring
    · have hb : (a.id == w) = false := by simpa using h
      simp only [List.filter_cons, hb, Bool.false_eq_true, if_false] at hfilter
      have hne : ¬((w == a.id) = true) := by
        simp only [beq_iff_eq]
        exact fun hc => h hc.symm
      rw [List.map_cons, List.sum_cons, if_neg hne, ih hfilter]
      ring

theorem normalize_indicator (v : FF) (hv : v = FF.fin 200000 ∨ v = FF.fin 0) :
    FF.mul (FF.div v (.fin 200000)) (.fin 200000) = v := by
  rcases hv with rfl | rfl
  · simp only [FF.div]
    norm_num [FF.mul, qdiv_eq, qmul_eq]
  · simp only [FF.div]
    norm_num [FF.mul, qdiv_eq, qmul_eq]

/-- C5 (amended): for a board with unique snake ids whose end state is
`Winner w` the scorer output assigns 200000 to agent `w` and 0 to every other
agent; for a board whose end state is `TIE` the scorer output assigns NaN — not
0 — to every agent: the raw scores are all 0 and the normalization divides by
their zero total. -/
theorem scorer_terminal {b : Board} :
    (∀ w, (b.snakes.map Battlesnake.id).Nodup → b.get_endstate = .Winner w →
      generate_score_array ⟨b⟩ =
        .ok (b.snakes.map (fun s => if w == s.id then FF.fin 200000 else FF.fin 0))) ∧
    (b.get_endstate = .TIE →
      generate_score_array ⟨b⟩ = .ok (b.snakes.map (fun _ => FF.nan))) := by
  constructor
  · intro w hnodup hw
    rcases winner_alive_snake hw with ⟨t, htfil, htw⟩
    have htmem : t ∈ b.snakes := (List.mem_filter.mp (htfil ▸ List.mem_singleton_self t)).1
    have hfil : b.snakes.filter (fun x => x.id == w) = [t] := by
      have hx := filter_id_nodup hnodup htmem
      rwa [htw] at hx
    have hind : b.snakes.map (fun s => if w == s.id then FF.fin 200000 else FF.fin 0) =
        b.snakes.map (fun s => FF.fin (if w == s.id then (200000 : ℚ) else 0)) := by
      apply List.map_congr_left
      intro s _
      exact (apply_ite FF.fin ((w == s.id) = true) 200000 0).symm
    have htot : (b.snakes.map (fun s => if w == s.id then FF.fin 200000 else FF.fin 0)).foldl
        FF.add (.fin 0) = .fin 200000 := by
      rw [hind, foldl_ffadd_fin (fun s => if w == s.id then (200000 : ℚ) else 0) b.snakes 0,
        sum_winner_indicator hfil]
      norm_num
    unfold generate_score_array
    dsimp only
    rw [hw, raw_scores_winner]
    dsimp only [Bind.bind, Except.bind]
    rw [htot]
    congr 1
    rw [List.map_map]
    apply List.map_congr_left
    intro s _
    apply normalize_indicator
    by_cases h : w == s.id
    · exact Or.inl (by simp only [Function.comp_apply, h, if_true])
    · exact Or.inr (by simp only [Function.comp_apply, h, Bool.false_eq_true, if_false])
  · intro ht
    have htot : (b.snakes.map (fun _ : Battlesnake => FF.fin 0)).foldl
        FF.add (.fin 0) = .fin 0 := by
      rw [foldl_ffadd_fin (fun _ : Battlesnake => (0 : ℚ)) b.snakes 0]
      have hs : (b.snakes.map (fun _ : Battlesnake => (0 : ℚ))).sum = 0 := by
        apply List.sum_eq_zero
        intro x hx
        rcases List.mem_map.mp hx with ⟨_, _, rfl⟩
        rfl
      rw [hs]
      norm_num
    unfold generate_score_array
    dsimp only
    rw [ht, raw_scores_tie]
    dsimp only [Bind.bind, Except.bind]
    rw [htot]
    congr 1
    rw [List.map_map]
    apply List.map_congr_left
    intro s _
    simp [Function.comp, FF.div, FF.mul]

/-- C6 (amended): the scorer does NOT implement the prescribed equal-split
fallback: on any board on which every agent's raw score is 0, the normalization
divides by the zero total and every agent's utility is NaN. -/
theorem scorer_degenerate_nan {b : Board}
    (hz : ∀ s ∈ b.snakes,
      calculate_raw_score_per_snake s.id b.get_endstate b = .ok (FF.fin 0)) :
    generate_score_array ⟨b⟩ = .ok (b.snakes.map (fun _ => FF.nan)) := by
  have htot : (b.snakes.map (fun _ : Battlesnake => FF.fin 0)).foldl
      FF.add (.fin 0) = .fin 0 := by
    rw [foldl_ffadd_fin (fun _ : Battlesnake => (0 : ℚ)) b.snakes 0]
    have hs : (b.snakes.map (fun _ : Battlesnake => (0 : ℚ))).sum = 0 := by
      apply List.sum_eq_zero
      intro x hx
      rcases List.mem_map.mp hx with ⟨_, _, rfl⟩
      rfl
    rw [hs]
    norm_num
  unfold generate_score_array
  dsimp only
  rw [raw_scores_pointwise_zero hz]
  dsimp only [Bind.bind, Except.bind]
  rw [htot]
  congr 1
  rw [List.map_map]
  apply List.map_congr_left
  intro s _
  simp [Function.comp, FF.div, FF.mul]

/-- Counterexample to C5 as stated: on the Tie board `tie_board` the scorer
outputs NaN — the raw scores are all 0 and `(0/0) * 200000` is NaN — not the
claimed utility 0. -/
theorem scorer_tie_nan_cex :
    tie_board.get_endstate = .TIE ∧
    generate_score_array ⟨tie_board⟩ = .ok [FF.nan] ∧
    FF.nan ≠ FF.fin 0 :=
  ⟨by decide, by decide, by decide⟩

/-- Witness for the amended C5 at a concrete Winner board and a concrete Tie
board. -/
theorem scorer_terminal_witness :
    (winner_board.snakes.map Battlesnake.id).Nodup ∧
    winner_board.get_endstate = .Winner "b" ∧
    generate_score_array ⟨winner_board⟩ =
      .ok (winner_board.snakes.map
        (fun s => if "b" == s.id then FF.fin 200000 else FF.fin 0)) ∧
    tie_board.get_endstate = .TIE ∧
    generate_score_array ⟨tie_board⟩ =
      .ok (tie_board.snakes.map (fun _ => FF.nan)) :=
  ⟨by decide, by decide, scorer_terminal.1 "b" (by decide) (by decide),
   by decide, scorer_terminal.2 (by decide)⟩

/-- Counterexample to C6 as stated: on `tie2_board` every agent's raw score is
0; the scorer returns NaN for both agents instead of the claimed equal split of
200000 (100000 each). -/
theorem scorer_no_equal_split_cex :
    (∀ s ∈ tie2_board.snakes,
      calculate_raw_score_per_snake s.id tie2_board.get_endstate tie2_board =
        .ok (FF.fin 0)) ∧
    generate_score_array ⟨tie2_board⟩ = .ok [FF.nan, FF.nan] ∧
    (Except.ok [FF.nan, FF.nan] : Except String (List FF)) ≠
      .ok [FF.fin 100000, FF.fin 100000] :=
  ⟨by decide, by decide, by decide⟩

/-- Witness for the amended C6 at `tie2_board`. -/
theorem scorer_degenerate_nan_witness :
    (∀ s ∈ tie2_board.snakes,
      calculate_raw_score_per_snake s.id tie2_board.get_endstate tie2_board =
        .ok (FF.fin 0)) ∧
    generate_score_array ⟨tie2_board⟩ =
      .ok (tie2_board.snakes.map (fun _ => FF.nan)) :=
  ⟨by decide, scorer_degenerate_nan (by decide)⟩

/-! C7: where the search starts, and the round flag. -/

theorem build_map_go (l : List (Nat × Battlesnake)) (m : List (String × Nat))
    (hdisj : ∀ p ∈ l, ∀ q ∈ m, q.1 ≠ p.2.id)
    (hnodup : (l.map (fun p => p.2.id)).Nodup) :
    l.foldl (fun m p => map_insert m p.2.id p.1) m =
      m ++ l.map (fun p => (p.2.id, p.1)) := by
  induction l generalizing m with
  | nil => simp
  | cons p rest ih =>
    have hany : m.any (fun q => q.1 == p.2.id) = false := by
      rw [List.any_eq_false]
      intro q hq
      simp only [beq_iff_eq]
      exact hdisj p (List.mem_cons_self p rest) q hq
    have hins : map_insert m p.2.id p.1 = m ++ [(p.2.id, p.1)] := by
      unfold map_insert
      rw [hany]
      simp
    simp only [List.map_cons, List.nodup_cons] at hnodup
    simp only [List.foldl_cons, hins]
    rw [ih (m ++ [(p.2.id, p.1)])
      (by
        intro x hx q hq
        rcases List.mem_append.mp hq with hq | hq
        · exact hdisj x (List.mem_cons_of_mem p hx) q hq
        · rcases List.mem_singleton.mp hq with rfl
          intro heq
          have heq2 : p.2.id = x.2.id := heq
          have hmem : x.2.id ∈ rest.map (fun p => p.2.id) :=
            List.mem_map_of_mem (fun p => p.2.id) hx
          rw [← heq2] at hmem
          exact hnodup.1 hmem)
      hnodup.2]
    simp

theorem tree_new_map (b : Board) (hnodup : (b.snakes.map Battlesnake.id).Nodup) :
    (Tree.new b).snake_map = b.snakes.enum.map (fun p => (p.2.id, p.1)) := by
  unfold Tree.new
  dsimp only
  rw [build_map_go b.snakes.enum [] (by intro p _ q hq; cases hq) ?_]
  · simp
  · have he : b.snakes.enum.map (fun p => p.2.id) = b.snakes.map Battlesnake.id := by
      rw [show (fun p : Nat × Battlesnake => p.2.id) =
        (Battlesnake.id ∘ Prod.snd) from rfl, ← List.map_map, List.enum_map_snd]
    rw [he]
    exact hnodup

theorem find_enumFrom {l : List Battlesnake} (hnodup : (l.map Battlesnake.id).Nodup) :
    ∀ (n i : Nat) (h : i < l.length),
    ((List.enumFrom n l).map (fun p => (p.2.id, p.1))).find?
        (fun q => q.1 == (l.get ⟨i, h⟩).id) = some ((l.get ⟨i, h⟩).id, n + i) := by
  induction l with
  | nil =>
    intro n i h
    cases h
  | cons a rest ih =>
    intro n i h
    simp only [List.map_cons, List.nodup_cons] at hnodup
    match i with
    | 0 =>
      rw [show List.enumFrom n (a :: rest) = (n, a) :: List.enumFrom (n + 1) rest from rfl]
      rw [List.map_cons, List.find?_cons_of_pos _ (by simp)]
      rfl
    | Nat.succ j =>
      have hj : j < rest.length := Nat.lt_of_succ_lt_succ h
      have hget : (a :: rest).get ⟨j + 1, h⟩ = rest.get ⟨j, hj⟩ := rfl
      rw [hget]
      rw [show List.enumFrom n (a :: rest) = (n, a) :: List.enumFrom (n + 1) rest from rfl]
      have hpred : (((n, a).2.id == (rest.get ⟨j, hj⟩).id) : Bool) = false := by
        rw [beq_eq_false_iff_ne]
        intro heq
        have hmem : (rest.get ⟨j, hj⟩).id ∈ rest.map Battlesnake.id :=
          List.mem_map_of_mem Battlesnake.id (rest.get_mem j hj)
        rw [← heq] at hmem
        exact hnodup.1 hmem
      rw [List.map_cons]
      simp only [List.find?, hpred]
      rw [ih hnodup.2 (n + 1) j hj]
      have harith : n + 1 + j = n + (j + 1) := by omega
      rw [harith]

theorem map_get_tree_new {b : Board} (hnodup : (b.snakes.map Battlesnake.id).Nodup)
    (i : Nat) (h : i < b.snakes.length) :
    map_get (Tree.new b).snake_map (b.snakes.get ⟨i, h⟩).id = .ok i := by
  rw [tree_new_map b hnodup]
  unfold map_get
  rw [show b.snakes.enum = List.enumFrom 0 b.snakes from rfl,
    find_enumFrom hnodup 0 i h]
  simp

/-- C7 (amended): `get_best_move` launches the recursion at depth 0 on the root
board with `current_snake` equal to the REQUESTED snake id — not the first
snake in turn order — and, for a tree built over a board with unique snake ids,
`is_last_nake` (the value passed as `is_last_agent_in_round`) answers `true`
exactly for the snake at the last index of the turn order. -/
theorem search_initial_state {b : Board} :
    (∀ t : String, (Tree.new b).get_best_move t = get_best_move_from (Tree.new b) t) ∧
    ((b.snakes.map Battlesnake.id).Nodup →
      ∀ i (h : i < b.snakes.length),
        ((Tree.new b).is_last_nake (b.snakes.get ⟨i, h⟩).id = .ok true ↔
          i + 1 = b.snakes.length)) := by
  constructor
  · intro t
    rfl
  · intro hnodup i h
    unfold Tree.is_last_nake
    rw [map_get_tree_new hnodup i h]
    dsimp only [Bind.bind, Except.bind]
    have hlen : (Tree.new b).snake_vec.length = b.snakes.length := by
      unfold Tree.new
      dsimp only
      rw [List.length_map]
    rw [hlen]
    constructor
    · intro hok
      cases hbe : (i + 1 == b.snakes.length) with
      | false =>
        rw [hbe] at hok
        cases hok
      | true => simpa using hbe
    · intro heq
      simp [heq]

/-- Counterexample to C7 as stated: on `search_board` (snakes "a" then "b" in
turn order) the search for the requested snake "b" returns its best move
(left, (0, -1)); a search launched from the FIRST snake in turn order — the
spec's claimed initial state — returns (1, 0) instead.  `get_best_move` does
not start at the first agent in turn order. -/
theorem search_start_agent_cex :
    search_tree.snake_vec = ["a", "b"] ∧
    search_tree.get_best_move "b" = .ok (0, -1) ∧
    get_best_move_spec_first search_tree = .ok (1, 0) ∧
    ((0 : Int), (-1 : Int)) ≠ ((1 : Int), (0 : Int)) :=
  ⟨by decide, by decide, by decide, by decide⟩

/-- Witness for the amended C7 on `search_board`: snake "b" sits at index 1 of
2, and `is_last_nake` answers `true` for it. -/
theorem search_initial_state_witness :
    search_tree.get_best_move "b" = get_best_move_from search_tree "b" ∧
    (search_board.snakes.map Battlesnake.id).Nodup ∧
    ((Tree.new search_board).is_last_nake
        (search_board.snakes.get ⟨1, by decide⟩).id = .ok true ↔
      1 + 1 = search_board.snakes.length) :=
  ⟨(search_initial_state (b := search_board)).1 "b", by decide,
   (search_initial_state (b := search_board)).2 (by decide) 1 (by decide)⟩

end RustySnake
